import Mathlib

/-!
Verification development for the wkteam-webapp BFF event core.

The definitions below are a shallow embedding of the server code in
src/server/app.ts, src/server/db.ts (FileDb, types) and src/server/http.ts.
Handlers are embedded at the post-JSON-parse level: each handler takes the
structured request body together with the in-memory snapshot and a request
clock value, and returns the new snapshot, the HTTP response, the list of
SSE publish calls, the number of persist calls issued on the request path,
and flags for side channels (automation enqueue, upstream network call).
The injected clock deps.nowMs is evaluated once per request (the test
suite injects a constant clock); ids from makeId take the random hex
suffix as an explicit parameter.
-/

namespace WkteamSpec

/-!
String operations are defined over the character list of a string so
that every definition evaluates inside the kernel on concrete inputs
(the corresponding core String functions go through byte positions and
do not reduce). JS string indices are UTF-16 units; the code points of
the payloads modelled here lie in the basic plane, where the two
coincide.
-/

/-- JS string length (code points, see the module note). -/
def strLen (s : String) : Nat := s.data.length

/-- JS startsWith. -/
def strStartsWith (s p : String) : Bool := p.data.isPrefixOf s.data

/-- JS endsWith. -/
def strEndsWith (s p : String) : Bool := p.data.isSuffixOf s.data

/-- Trim of a character list on both sides. -/
def trimChars (l : List Char) : List Char :=
  ((l.dropWhile Char.isWhitespace).reverse.dropWhile Char.isWhitespace).reverse

/-- JS trim. -/
def strTrim (s : String) : String := String.mk (trimChars s.data)

/-- JS toLowerCase (ASCII range, which the compared tokens use). -/
def strToLower (s : String) : String := String.mk (s.data.map Char.toLower)

/-- JS slice(0, n). -/
def strTake (s : String) (n : Nat) : String := String.mk (s.data.take n)

/-- JS slice(n). -/
def strDrop (s : String) (n : Nat) : String := String.mk (s.data.drop n)

/-- Drop of the final n units. -/
def strDropRight (s : String) (n : Nat) : String :=
  String.mk (s.data.take (s.data.length - n))

/-- Buffer.byteLength in utf-8. -/
def utf8Len (s : String) : Nat := (s.data.map Char.utf8Size).sum

/-- Split of a character list at every occurrence of a non-empty
separator, fuel-bounded by the list length. -/
def splitOnChars (sep : List Char) : Nat → List Char → List Char → List (List Char)
  | 0, acc, rest => [acc.reverse ++ rest]
  | _ + 1, acc, [] => [acc.reverse]
  | fuel + 1, acc, l@(c :: cs) =>
    if sep.isPrefixOf l then acc.reverse :: splitOnChars sep fuel [] (l.drop sep.length)
    else splitOnChars sep fuel (c :: acc) cs

/-- JS split on a non-empty literal separator. -/
def strSplitOn (s sep : String) : List String :=
  (splitOnChars sep.data (s.data.length + 1) [] s.data).map String.mk

/-- Join with a separator. -/
def strIntercalate (sep : String) (parts : List String) : String :=
  String.mk (List.intercalate sep.data (parts.map String.data))

/-- Message direction, from the db.ts union type. -/
inductive Direction where
  | inbound
  | outbound
deriving DecidableEq, Repr

/-- Message source, from the db.ts union type. -/
inductive Source where
  | human
  | ai
  | system
  | webhook
deriving DecidableEq, Repr

/-- Message kind discriminant of the tagged union text | image | file. -/
inductive MsgKind where
  | text
  | image
  | file
deriving DecidableEq, Repr

/-- Variant payload of a message: text string, image dataUrl and alt,
or file name, mime and dataUrl. -/
inductive MessagePayload where
  | text (text : String)
  | image (dataUrl : String) (alt : String)
  | file (name : String) (mime : String) (dataUrl : String)
deriving DecidableEq, Repr

/-- Kind discriminant of a payload. -/
def MessagePayload.kind : MessagePayload → MsgKind
  | .text _ => .text
  | .image _ _ => .image
  | .file _ _ _ => .file

/-- Message record. raw and rawTruncated are the optional fields attached
by the webhook callback handler to image and file messages (app.ts common
object, lines 1331-1339). -/
structure Message where
  id : String
  conversationId : String
  direction : Direction
  source : Source
  sentAt : Int
  payload : MessagePayload
  raw : Option String := none
  rawTruncated : Bool := false
deriving DecidableEq, Repr

/-- Kind of a message. -/
def Message.kind (m : Message) : MsgKind := m.payload.kind

/-- Conversation record, from db.ts. -/
structure Conversation where
  id : String
  title : String
  peerId : String
  pinned : Bool
  unreadCount : Nat
  lastMessageId : Option String
  lastActivityAt : Int
  createdAt : Int
  updatedAt : Int
deriving DecidableEq, Repr

/-- Automation run trigger; app.ts uses manual, webhook and human_send. -/
inductive RunTrigger where
  | manual
  | webhook
  | humanSend
deriving DecidableEq, Repr

/-- Automation run terminal status. -/
inductive RunStatus where
  | success
  | failed
  | skipped
deriving DecidableEq, Repr

/-- Structured error of a failed or skipped automation run. -/
structure RunError where
  code : String
  message : String
deriving DecidableEq, Repr

/-- Model descriptor of an automation run. -/
structure ModelDesc where
  baseUrlHost : String
  model : String
deriving DecidableEq, Repr

/-- AutomationRun record, from db.ts and the run pushes in app.ts. -/
structure AutomationRun where
  id : String
  trigger : RunTrigger
  conversationId : String
  inputMessageId : String
  outputMessageId : Option String
  status : RunStatus
  startedAt : Int
  endedAt : Int
  error : Option RunError := none
  model : Option ModelDesc := none
deriving DecidableEq, Repr

/-- The whole durable snapshot DbV1. The JS object webhookDedupeKeys is
modelled as an insertion-ordered association list from dedupe key to the
message id it produced. -/
structure DbV1 where
  schemaVersion : Nat := 1
  updatedAt : Int
  automationEnabled : Bool
  conversations : List Conversation
  messages : List Message
  automationRuns : List AutomationRun
  webhookDedupeKeys : List (String × String)
deriving DecidableEq, Repr

/-- JS object property read obj[k]: first binding of the key, if any. -/
def recordGet (m : List (String × String)) (k : String) : Option String :=
  (m.find? (fun p => p.1 = k)).map (fun p => p.2)

/-- JS object property write obj[k] = v: replace an existing binding in
place, else append (JS string keys keep insertion order). -/
def recordSet (m : List (String × String)) (k v : String) : List (String × String) :=
  if m.any (fun p => p.1 = k) then
    m.map (fun p => if p.1 = k then (k, v) else p)
  else
    m ++ [(k, v)]

/-- JS truthiness of the property read used by the dedupe checks
(app.ts lines 1083 and 1315): present with a non-empty string value. -/
def recordHasTruthy (m : List (String × String)) (k : String) : Bool :=
  match recordGet m k with
  | some v => v ≠ ""
  | none => false

/-- Id generation, from db.ts makeId: a tag, underscore, epoch ms,
underscore, random hex suffix. The random suffix is an explicit argument. -/
def makeId (tag : String) (nowMs : Int) (rand : String) : String :=
  tag ++ "_" ++ toString nowMs ++ "_" ++ rand

/-- Parsed wk conversation id components. -/
structure WkInfo where
  wId : String
  peerKind : String
  peerId : String
deriving DecidableEq, Repr

/-- Parse of the anchored regex wk:([^:]+):(u|g):(.+) from app.ts
parseWkConversationId. The first group stops at the first colon, the kind
group is a single u or g segment, and the final group is the non-empty
remainder (which may itself contain colons). -/
def parseWkConversationId (conversationId : String) : Option WkInfo :=
  if strStartsWith conversationId "wk:" then
    match strSplitOn (strDrop conversationId 3) ":" with
    | wId :: kind :: peerParts =>
        let peerId := strIntercalate ":" peerParts
        if wId ≠ "" ∧ (kind = "u" ∨ kind = "g") ∧ peerParts ≠ [] ∧ peerId ≠ "" then
          some { wId := wId, peerKind := kind, peerId := peerId }
        else
          none
    | _ => none
  else
    none

/-- Validity check from app.ts isValidWkConversationId: length at most 120
and the wk pattern parses. -/
def isValidWkConversationId (conversationId : String) : Bool :=
  if strLen conversationId > 120 then false
  else (parseWkConversationId conversationId).isSome

/-- JS Math.trunc on an exact rational: truncation toward zero. -/
def jsTrunc (q : ℚ) : Int :=
  if 0 ≤ q then ⌊q⌋ else ⌈q⌉

/-- A JS number argument as seen by normalizeEpochMs: either a finite
value (modelled exactly as a rational), a non-finite number, or a missing
or non-number value. -/
inductive JsNumberInput where
  | missing
  | nan
  | posInf
  | negInf
  | finite (q : ℚ)
deriving DecidableEq

/-- The millisecond epoch threshold literal 1_000_000_000_000 in app.ts. -/
def msEpochThreshold : ℚ := 1000000000000

/-- Timestamp normalization from app.ts normalizeEpochMs: non-number or
non-finite inputs yield the fallback; a finite value below the threshold
is treated as seconds and scaled by 1000 with Math.trunc, otherwise it is
truncated as already being milliseconds. -/
def normalizeEpochMs (ts : JsNumberInput) (fallbackMs : Int) : Int :=
  match ts with
  | .finite q => if q < msEpochThreshold then jsTrunc (q * 1000) else jsTrunc q
  | _ => fallbackMs

/-- JSON value as produced by JSON.parse at the HTTP boundary. Numbers are
modelled as exact rationals (the decimal JSON numerals appearing in
provider payloads are exactly representable). -/
inductive JsonValue where
  | null
  | bool (b : Bool)
  | num (q : ℚ)
  | str (s : String)
  | arr (items : List JsonValue)
  | obj (fields : List (String × JsonValue))
deriving Repr

/-- JSON whitespace. -/
def isJsonWs (c : Char) : Bool :=
  c = ' ' ∨ c = '\n' ∨ c = '\t' ∨ c = '\r'

/-- Drop leading JSON whitespace of a character stream. -/
def skipWsChars (l : List Char) : List Char :=
  l.dropWhile isJsonWs

/-- JSON object member insertion with the JSON.parse duplicate-key rule:
a later duplicate overwrites the value in place, keeping first-insertion
order. -/
def objInsert (fields : List (String × JsonValue)) (k : String) (v : JsonValue) :
    List (String × JsonValue) :=
  if fields.any (fun p => p.1 = k) then
    fields.map (fun p => if p.1 = k then (k, v) else p)
  else
    fields ++ [(k, v)]

/-- Parse the body of a JSON string after the opening quote, handling the
basic escapes (unicode escapes do not occur in the payloads modelled).
The accumulator holds the characters read so far in reverse. -/
def parseStringBody : Nat → List Char → List Char → Option (String × List Char)
  | 0, _, _ => none
  | _, _, [] => none
  | fuel + 1, acc, c :: cs =>
    if c = '"' then some (String.mk acc.reverse, cs)
    else if c = '\\' then
      match cs with
      | [] => none
      | e :: cs2 =>
        let ec : Option Char :=
          if e = '"' then some '"'
          else if e = '\\' then some '\\'
          else if e = '/' then some '/'
          else if e = 'n' then some '\n'
          else if e = 't' then some '\t'
          else if e = 'r' then some '\r'
          else none
        match ec with
        | none => none
        | some ch => parseStringBody fuel (ch :: acc) cs2
    else parseStringBody fuel (c :: acc) cs

/-- Digit run to a natural number. -/
def digitsToNat (ds : List Char) : Nat :=
  ds.foldl (fun acc c => acc * 10 + (c.toNat - 48)) 0

/-- Parse a JSON number (sign, integer part, optional fraction and
exponent) into an exact rational. -/
def parseNumber (cs : List Char) : Option (ℚ × List Char) :=
  let startRes : Bool × List Char :=
    match cs with
    | '-' :: r => (true, r)
    | _ => (false, cs)
  let neg := startRes.1
  let cs1 := startRes.2
  let ip := cs1.takeWhile Char.isDigit
  let cs2 := cs1.dropWhile Char.isDigit
  if ip = [] then none
  else
    let intPart : ℚ := (digitsToNat ip : ℚ)
    let fracRes : Option (ℚ × List Char) :=
      match cs2 with
      | '.' :: r =>
        let fd := r.takeWhile Char.isDigit
        let r2 := r.dropWhile Char.isDigit
        if fd = [] then none
        else some (intPart + (digitsToNat fd : ℚ) / ((10 : ℚ) ^ fd.length), r2)
      | _ => some (intPart, cs2)
    match fracRes with
    | none => none
    | some (mag, cs3) =>
      let expRes : Option (ℚ × List Char) :=
        match cs3 with
        | 'e' :: r | 'E' :: r =>
          let signRes : Bool × List Char :=
            match r with
            | '-' :: r2 => (true, r2)
            | '+' :: r2 => (false, r2)
            | _ => (false, r)
          let ed := signRes.2.takeWhile Char.isDigit
          let r3 := signRes.2.dropWhile Char.isDigit
          if ed = [] then none
          else
            let e : ℤ := if signRes.1 then -(digitsToNat ed : ℤ) else (digitsToNat ed : ℤ)
            some (mag * (10 : ℚ) ^ e, r3)
        | _ => some (mag, cs3)
      match expRes with
      | none => none
      | some (v, cs4) => some ((if neg then -v else v), cs4)

mutual

/-- Recursive-descent JSON value parser with explicit fuel. -/
def parseJsonValue : Nat → List Char → Option (JsonValue × List Char)
  | 0, _ => none
  | fuel + 1, input =>
    match skipWsChars input with
    | [] => none
    | c :: rest =>
      if c = '"' then
        match parseStringBody (fuel + 1) [] rest with
        | some (s, r) => some (.str s, r)
        | none => none
      else if c = '{' then
        parseObjMembers fuel (skipWsChars rest) [] true
      else if c = '[' then
        parseArrItems fuel (skipWsChars rest) [] true
      else if c = 't' then
        match rest with
        | 'r' :: 'u' :: 'e' :: r => some (.bool true, r)
        | _ => none
      else if c = 'f' then
        match rest with
        | 'a' :: 'l' :: 's' :: 'e' :: r => some (.bool false, r)
        | _ => none
      else if c = 'n' then
        match rest with
        | 'u' :: 'l' :: 'l' :: r => some (.null, r)
        | _ => none
      else
        match parseNumber (c :: rest) with
        | some (q, r) => some (.num q, r)
        | none => none

/-- Parse the members of a JSON object after the opening brace. -/
def parseObjMembers : Nat → List Char → List (String × JsonValue) → Bool →
    Option (JsonValue × List Char)
  | 0, _, _, _ => none
  | _ + 1, '}' :: r, acc, true => some (.obj acc, r)
  | fuel + 1, input, acc, _ =>
    match skipWsChars input with
    | '"' :: r =>
      match parseStringBody (fuel + 1) [] r with
      | none => none
      | some (k, r2) =>
        match skipWsChars r2 with
        | ':' :: r3 =>
          match parseJsonValue fuel r3 with
          | none => none
          | some (v, r4) =>
            match skipWsChars r4 with
            | ',' :: r5 => parseObjMembers fuel (skipWsChars r5) (objInsert acc k v) false
            | '}' :: r5 => some (.obj (objInsert acc k v), r5)
            | _ => none
        | _ => none
    | _ => none

/-- Parse the items of a JSON array after the opening bracket. -/
def parseArrItems : Nat → List Char → List JsonValue → Bool →
    Option (JsonValue × List Char)
  | 0, _, _, _ => none
  | _ + 1, ']' :: r, acc, true => some (.arr acc, r)
  | fuel + 1, input, acc, _ =>
    match parseJsonValue fuel input with
    | none => none
    | some (v, r) =>
      match skipWsChars r with
      | ',' :: r2 => parseArrItems fuel r2 (acc ++ [v]) false
      | ']' :: r2 => some (.arr (acc ++ [v]), r2)
      | _ => none

end

/-- JSON.parse of a whole document: the parsed value with only trailing
whitespace remaining. -/
def jsonParse? (s : String) : Option JsonValue :=
  match parseJsonValue (s.data.length + 16) s.data with
  | some (v, rest) => if skipWsChars rest = [] then some v else none
  | none => none

/-- JS typeof v === object (arrays included, null excluded in the uses
below since null is a separate constructor here). -/
def isObjOrArr : JsonValue → Bool
  | .obj _ => true
  | .arr _ => true
  | _ => false

/-- Object.entries iteration order of a JS object or array: fields in
insertion order, array items under their stringified indices. -/
def jsEntries : JsonValue → List (String × JsonValue)
  | .obj fields => fields
  | .arr items => items.enum.map (fun p => (toString p.1, p.2))
  | _ => []

/-- One pass over the entries of the current node in the BFS of
pickStringByKeyAliases: return the first wanted string entry with a
non-empty trim, and collect the object or array children to enqueue. -/
def scanEntries (want : List String) : List (String × JsonValue) →
    Option String × List JsonValue
  | [] => (none, [])
  | (k, child) :: rest =>
    match child with
    | .str s =>
      if want.contains (strToLower k) ∧ strTrim s ≠ "" then (some (strTrim s), [])
      else scanEntries want rest
    | _ =>
      let tailRes := scanEntries want rest
      ((tailRes.1), (if isObjOrArr child then [child] else []) ++ tailRes.2)

/-- Breadth-first search of pickStringByKeyAliases in app.ts: a queue of
values with their depth, at most 2000 visited nodes, nodes deeper than 6
skipped. Cycle tracking of the source is dropped since parsed JSON is a
tree. -/
def bfsPick (want : List String) : Nat → List (JsonValue × Nat) → Option String
  | 0, _ => none
  | _, [] => none
  | fuel + 1, (v, depth) :: rest =>
    if depth > 6 then bfsPick want fuel rest
    else if isObjOrArr v then
      match scanEntries want (jsEntries v) with
      | (some s, _) => some s
      | (none, children) =>
        bfsPick want fuel (rest ++ children.map (fun c => (c, depth + 1)))
    else bfsPick want fuel rest

/-- pickStringByKeyAliases from app.ts: first string value under any of
the given keys (case-insensitive) in breadth-first order. -/
def pickStringByKeyAliases (root : JsonValue) (keys : List String) : Option String :=
  bfsPick (keys.map (fun k => strToLower k)) 2000 [(root, 0)]

/-- Walk of an object path as done by pickStringByPaths; a named key on
an array or scalar yields undefined as in JS. -/
def getPath : JsonValue → List String → Option JsonValue
  | v, [] => some v
  | .obj fields, k :: ks =>
    match (fields.find? (fun p => p.1 = k)).map (fun p => p.2) with
    | some child => getPath child ks
    | none => none
  | _, _ :: _ => none

/-- pickStringByPaths from the callback handler: first path whose final
value is a string with non-empty trim, returned trimmed. -/
def pickStringByPaths (root : JsonValue) (paths : List (List String)) : Option String :=
  paths.findSome? (fun path =>
    match getPath root path with
    | some (.str s) => if strTrim s ≠ "" then some (strTrim s) else none
    | _ => none)

/-- Case-insensitive http or https scheme test, the regex
https?:\/\/ anchored at the start. -/
def isHttpUrl (s : String) : Bool :=
  strStartsWith (strToLower s) "http://" ∨ strStartsWith (strToLower s) "https://"

/-- pickHttpUrl from the callback handler: the ordered path list, kept
only when the found string is an http(s) URL. -/
def pickHttpUrl (root : JsonValue) : Option String :=
  match pickStringByPaths root
      [["data", "url"], ["data", "path"], ["data", "content"], ["data", "cdnUrl"],
       ["url"], ["path"], ["content"]] with
  | none => none
  | some v => if isHttpUrl v then some v else none

/-- Characters admitted by the base64 heuristic regex in the callback
handler. -/
def isBase64HeuristicChar (c : Char) : Bool :=
  c.isAlpha ∨ c.isDigit ∨ c = '+' ∨ c = '/' ∨ c = '=' ∨ c = '\r' ∨ c = '\n'

/-- isLikelyBase64 from the callback handler: trimmed length at least 128,
no data: scheme, no markup angle brackets, only base64 alphabet
characters. -/
def isLikelyBase64 (s : String) : Bool :=
  let v := strTrim s
  if strLen v < 128 then false
  else if strStartsWith v "data:" then false
  else if v.data.any (fun c => c = '<' ∨ c = '>') then false
  else v.data ≠ [] ∧ v.data.all isBase64HeuristicChar

/-- pickXmlTitle from the callback handler, for the common provider shape:
content of the first title element, CDATA unwrapped, trimmed. The source
regex is case-insensitive and lazy; provider payloads use lowercase tags
and CDATA blocks without embedded closing tags, which this covers. -/
def pickXmlTitle (xml : String) : Option String :=
  match strSplitOn xml "<title>" with
  | _ :: restHead :: restTail =>
    let after := strIntercalate "<title>" (restHead :: restTail)
    match strSplitOn after "</title>" with
    | inner :: _ :: _ =>
      let t := strTrim inner
      let core :=
        if strStartsWith t "<![CDATA[" then
          match strSplitOn (strDrop t 9) "]]>" with
          | c :: _ :: _ => strTrim c
          | _ => t
        else t
      if core ≠ "" then some core else none
    | _ => none
  | _ => none

/-- Non-empty path segments, last one, as in split on slash, filter
truthy, take last. -/
def lastPathSegment (path : String) : Option String :=
  ((strSplitOn path "/").filter (fun s => s ≠ "")).getLast?

/-- Pathname of an http(s) URL, query and fragment cut; mirrors the
pathname computed by new URL for the URLs reaching this helper (they have
passed the http(s) scheme test). Percent decoding is left out; it only
affects the cosmetic file name. -/
def urlPathname (input : String) : Option String :=
  if isHttpUrl input then
    let afterScheme :=
      if strStartsWith (strToLower input) "https://" then strDrop input 8 else strDrop input 7
    let beforeHash := (strSplitOn afterScheme "#").headD afterScheme
    let beforeQuery := (strSplitOn beforeHash "?").headD beforeHash
    match strSplitOn beforeQuery "/" with
    | _host :: restSegs => some ("/" ++ strIntercalate "/" restSegs)
    | [] => some "/"
  else none

/-- inferFileNameFromUrlOrPath from the callback handler. -/
def inferFileNameFromUrlOrPath (input : Option String) : Option String :=
  match input with
  | none => none
  | some s =>
    match urlPathname s with
    | some pn => lastPathSegment pn
    | none => lastPathSegment s

/-- Characters of the normalizeBase64 charset [A-Za-z0-9+/_-]. -/
def isBase64UrlChar (c : Char) : Bool :=
  c.isAlpha ∨ c.isDigit ∨ c = '+' ∨ c = '/' ∨ c = '_' ∨ c = '-'

/-- normalizeBase64 from app.ts: trim, strip a data URL envelope, remove
all whitespace, accept only base64 or base64url bodies with at most two
trailing equals and length at least 4. -/
def normalizeBase64 (input : String) : Option String :=
  let s0 := strTrim input
  if s0 = "" then none
  else
    let s1 :=
      if strStartsWith s0 "data:" then
        let afterData := strDrop s0 5
        match strSplitOn afterData ";" with
        | mime :: restHead :: restTail =>
          let tl := strIntercalate ";" (restHead :: restTail)
          if mime ≠ "" ∧ strStartsWith tl "base64," ∧ (strDrop tl 7) ≠ "" then
            strTrim (strDrop tl 7)
          else ""
        | _ => ""
      else s0
    let s := String.mk (s1.data.filter (fun c => ¬ c.isWhitespace))
    if s = "" then none
    else
      let revChars := s.data.reverse
      let eqCount := (revChars.takeWhile (fun c => c = '=')).length
      let body := (revChars.dropWhile (fun c => c = '=')).reverse
      if eqCount ≤ 2 ∧ body ≠ [] ∧ body.all isBase64UrlChar then
        if strLen s < 4 then none else some s
      else none

/-- Word characters for the boundary at the end of the generic URL
fallback regex. -/
def charIsWordChar (c : Char) : Bool :=
  c.isAlpha ∨ c.isDigit ∨ c = '_'

/-- Drop leading whitespace from a character stream. -/
def skipSpacesChars (l : List Char) : List Char :=
  l.dropWhile (fun c => c.isWhitespace)

/-- First suffix of the stream beginning with http:// or https://,
case-insensitive. -/
def suffixStartingWithHttp : List Char → Option (List Char)
  | [] => none
  | l@(_ :: rest) =>
    let low := strToLower (String.mk (l.take 8))
    if strStartsWith low "http://" ∨ strStartsWith low "https://" then some l
    else suffixStartingWithHttp rest

/-- Generic URL fallback of extractHydrateParamsFromRaw: the first
http(s) run without whitespace, quotes or angle brackets, ending at a
word boundary (trailing non-word characters dropped). First-occurrence
approximation of the source regex search. -/
def genericUrlMatch (raw : String) : Option String :=
  match suffixStartingWithHttp raw.data with
  | none => none
  | some l =>
    let run := l.takeWhile (fun c =>
      ¬ (c.isWhitespace ∨ c = '"' ∨ c = '\'' ∨ c = '<' ∨ c = '>'))
    let trimmed := (run.reverse.dropWhile (fun c => ¬ charIsWordChar c)).reverse
    if trimmed ≠ [] then some (String.mk trimmed) else none

/-- First suffix following an occurrence of cdnUrl or cdn_url,
case-insensitive. -/
def afterKeyCdn : List Char → Option (List Char)
  | [] => none
  | l@(_ :: rest) =>
    if strToLower (String.mk (l.take 7)) = "cdn_url" then some (l.drop 7)
    else if strToLower (String.mk (l.take 6)) = "cdnurl" then some (l.drop 6)
    else afterKeyCdn rest

/-- First suffix following an occurrence of aeskey, aesKey or aes_key,
case-insensitive. -/
def afterKeyAes : List Char → Option (List Char)
  | [] => none
  | l@(_ :: rest) =>
    if strToLower (String.mk (l.take 7)) = "aes_key" then some (l.drop 7)
    else if strToLower (String.mk (l.take 6)) = "aeskey" then some (l.drop 6)
    else afterKeyAes rest

/-- Shared tail of the two key-value fallback regexes: optional quote,
colon or equals, then a quoted capture of non-quote characters. When
requireHttp is set the capture must begin with an http(s) scheme. -/
def keyValueCapture (rest : List Char) (requireHttp : Bool) : Option String :=
  let r1 := skipSpacesChars rest
  let r2 :=
    match r1 with
    | c :: t => if c = '"' ∨ c = '\'' then t else r1
    | [] => r1
  let r3 := skipSpacesChars r2
  match r3 with
  | c :: t =>
    if c = ':' ∨ c = '=' then
      match skipSpacesChars t with
      | q :: t2 =>
        if q = '"' ∨ q = '\'' then
          let capOk :=
            if requireHttp then
              let low := strToLower (String.mk (t2.take 8))
              strStartsWith low "http://" ∨ strStartsWith low "https://"
            else true
          if capOk then
            let cap := t2.takeWhile (fun c2 => ¬ (c2 = '"' ∨ c2 = '\''))
            match t2.drop cap.length with
            | c3 :: _ =>
              if (c3 = '"' ∨ c3 = '\'') ∧ cap ≠ [] then some (String.mk cap) else none
            | [] => none
          else none
        else none
      | [] => none
    else none
  | [] => none

/-- cdnUrl fallback regex of extractHydrateParamsFromRaw, at the first
key occurrence. -/
def cdnUrlKeyMatch (raw : String) : Option String :=
  match afterKeyCdn raw.data with
  | none => none
  | some rest => keyValueCapture rest true

/-- aeskey fallback regex of extractHydrateParamsFromRaw, at the first
key occurrence. -/
def aesKeyMatch (raw : String) : Option String :=
  match afterKeyAes raw.data with
  | none => none
  | some rest => keyValueCapture rest false

/-- Result pair of extractHydrateParamsFromRaw. -/
structure HydrateParams where
  cdnUrl : Option String
  aeskey : Option String
deriving DecidableEq, Repr

/-- Coalesce an optional string to none when its trim is empty, trimming
otherwise, as the final cdnUrl and aeskey normalization does. -/
def trimToNone (o : Option String) : Option String :=
  match o with
  | some s => if strTrim s = "" then none else some (strTrim s)
  | none => none

/-- extractHydrateParamsFromRaw from app.ts: parse the stored raw JSON if
it looks like a document, take cdnUrl and aeskey by key aliases, falling
back to the string-level regex scans. -/
def extractHydrateParamsFromRaw (raw : Option String) : HydrateParams :=
  match raw with
  | none => { cdnUrl := none, aeskey := none }
  | some r =>
    if r = "" then { cdnUrl := none, aeskey := none }
    else
      let t := strTrim r
      let objVal : Option JsonValue :=
        if strStartsWith t "\x7b" ∨ strStartsWith t "[" then jsonParse? t else none
      let structuredCdn := objVal.bind (fun o =>
        pickStringByKeyAliases o ["cdnUrl", "cdn_url", "url", "path"])
      let cdnUrl := structuredCdn.orElse (fun _ =>
        (cdnUrlKeyMatch r).orElse (fun _ => genericUrlMatch r))
      let structuredAes := objVal.bind (fun o =>
        pickStringByKeyAliases o ["aeskey", "aesKey", "aes_key"])
      let aeskey := structuredAes.orElse (fun _ => aesKeyMatch r)
      { cdnUrl := trimToNone cdnUrl, aeskey := trimToNone aeskey }

/-- extractBase64FromUpstreamResponse from app.ts: strings are normalized
directly; objects and arrays are searched by key aliases with a nested
data fallback. -/
def extractBase64FromUpstreamResponse (data : JsonValue) : Option String :=
  match data with
  | .str s => normalizeBase64 s
  | .obj fields =>
    let primary := pickStringByKeyAliases (.obj fields) ["base64", "fileBase64", "content", "data"]
    let nested :=
      match (fields.find? (fun p => p.1 = "data")).map (fun p => p.2) with
      | some child =>
        if isObjOrArr child then pickStringByKeyAliases child ["base64", "fileBase64", "content"]
        else none
      | none => none
    match primary.orElse (fun _ => nested) with
    | some s => normalizeBase64 s
    | none => none
  | .arr items =>
    match pickStringByKeyAliases (.arr items) ["base64", "fileBase64", "content", "data"] with
    | some s => normalizeBase64 s
    | none => none
  | _ => none

/-- Action tag of a conversation.changed event. -/
inductive ConvAction where
  | created
  | updated
  | deleted
deriving DecidableEq, Repr

/-- SSE publish call, carrying the identifier payload each emit helper in
app.ts writes to every subscribed stream. -/
inductive SseEvent where
  | messageCreated (conversationId : String) (messageId : String) (kind : MsgKind)
  | messageUpdated (conversationId : String) (messageId : String) (kind : MsgKind)
  | conversationChanged (conversationId : String) (action : ConvAction)
deriving DecidableEq, Repr

/-- The conversation summary update mapped over the conversation list
after a message append (the identical map appears at every append site in
app.ts): set lastMessageId, lastActivityAt and updatedAt on the target
conversation. -/
def touchConversations (convs : List Conversation) (conversationId : String)
    (lastMessageId : String) (lastActivityAt : Int) (now : Int) : List Conversation :=
  convs.map (fun c =>
    if c.id = conversationId then
      { c with lastMessageId := some lastMessageId, lastActivityAt := lastActivityAt,
               updatedAt := now }
    else c)

/-- Catalog endpoint record from wkteamCatalog.ts. -/
structure Endpoint where
  operationId : String
  method : String
  path : String
deriving DecidableEq, Repr

/-- The loaded catalog map from operationId to endpoint. -/
abbrev Catalog := List (String × Endpoint)

/-- Map lookup on the catalog. -/
def catalogGet (c : Catalog) (k : String) : Option Endpoint :=
  (c.find? (fun p => p.1 = k)).map (fun p => p.2)

/-- Upstream provider configuration slice used by the handlers. -/
structure UpstreamConfig where
  baseUrl : String
  authorization : String
deriving DecidableEq, Repr

/-- UPSTREAM_BASE_URL.trim() with one trailing slash removed, as computed
at each use site. -/
def processedBaseUrl (s : String) : String :=
  let t := strTrim s
  if strEndsWith t "/" then strDropRight t 1 else t

/-- Whether the upstream base url and authorization are both configured
(truthiness of the two processed strings). -/
def upstreamConfigured (u : UpstreamConfig) : Bool :=
  processedBaseUrl u.baseUrl ≠ "" ∧ strTrim u.authorization ≠ ""

/-- Outcome of one outbound fetch as observed by a handler: a 2xx body,
a non-2xx body, an abort by the timeout controller, or a network error. -/
inductive FetchOutcome where
  | ok (bodyText : String)
  | httpError (status : Nat) (bodyText : String)
  | timeout
  | networkError (message : String)
deriving Repr

/-- Result of a webhook ingestion handler invocation. -/
structure WebhookResult where
  db : DbV1
  status : Nat
  ok : Bool
  deduped : Bool
  events : List SseEvent
  persists : Nat
  automationEnqueued : Bool
deriving DecidableEq, Repr

/-- Parsed body of POST /webhooks/wkteam/messages (after the zod schema:
dedupeKey and conversationId required strings, text and sentAt optional). -/
structure WkMessagesBody where
  dedupeKey : String
  conversationId : String
  text : Option String
  sentAt : Option Int
deriving DecidableEq, Repr

/-- Handler of POST /webhooks/wkteam/messages from app.ts: dedupe check,
eager placeholder conversation, message append, dedupe key record,
summary touch, persist, message.created publish, conditional automation
enqueue. rand is the random id suffix drawn inside makeId. -/
def webhookMessagesHandler (db : DbV1) (now : Int) (rand : String)
    (b : WkMessagesBody) : WebhookResult :=
  if recordHasTruthy db.webhookDedupeKeys b.dedupeKey then
    { db := db, status := 200, ok := true, deduped := true, events := [],
      persists := 0, automationEnqueued := false }
  else
    let conversationId := b.conversationId
    let inbound : Message :=
      { id := makeId "m" now rand, conversationId := conversationId,
        direction := .inbound, source := .webhook,
        sentAt := b.sentAt.getD now,
        payload := .text (b.text.getD "(empty)") }
    let convs :=
      if db.conversations.any (fun c => c.id = conversationId) then db.conversations
      else
        ({ id := conversationId, title := "会话 " ++ strTake conversationId 6,
           peerId := "unknown", pinned := false, unreadCount := 0,
           lastMessageId := none, lastActivityAt := now,
           createdAt := now, updatedAt := now } : Conversation) :: db.conversations
    let db1 : DbV1 :=
      { db with
        messages := db.messages ++ [inbound],
        webhookDedupeKeys := recordSet db.webhookDedupeKeys b.dedupeKey inbound.id,
        conversations := touchConversations convs conversationId inbound.id inbound.sentAt now,
        updatedAt := now }
    { db := db1, status := 200, ok := true, deduped := false,
      events := [.messageCreated conversationId inbound.id .text],
      persists := 1, automationEnqueued := db.automationEnabled }

/-- A provider field that the zod schema admits as number or string.
Numbers are restricted to the integral values provider ids and second or
millisecond timestamps take; String(n) then agrees with decimal
printing. -/
inductive IdLike where
  | num (n : Int)
  | str (s : String)
deriving DecidableEq, Repr

/-- JS String() of an id-like value. -/
def IdLike.toJsString : IdLike → String
  | .num n => toString n
  | .str s => s

/-- JS Number() on a trimmed decimal string, for string-typed provider
timestamps: empty coerces to zero, otherwise the decimal grammar of
parseNumber; other shapes give NaN. -/
def jsNumberOfString (s : String) : JsNumberInput :=
  let t := strTrim s
  if t = "" then .finite 0
  else
    match parseNumber t.data with
    | some (q, []) => .finite q
    | _ => .nan

/-- The data object of a wkteam callback payload after the zod schema. -/
structure WkCallbackData where
  wId : String
  fromUser : String
  fromGroup : Option String := none
  toUser : String
  msgId : Option IdLike := none
  newMsgId : Option IdLike := none
  timestamp : Option IdLike := none
  content : Option JsonValue := none
  self : Bool := false

/-- A wkteam callback payload after the zod schema (fields the handler
reads). -/
structure WkCallbackPayload where
  messageType : String
  data : WkCallbackData

/-- Peer kind of a callback: g when fromGroup has a truthy trim, else u. -/
def callbackPeerKind (p : WkCallbackPayload) : String :=
  match p.data.fromGroup with
  | some g => if strTrim g ≠ "" then "g" else "u"
  | none => "u"

/-- Peer id of a callback: the trimmed group for group messages, else the
counterparty (toUser for self-echoes, fromUser otherwise). -/
def callbackPeerId (p : WkCallbackPayload) : String :=
  if callbackPeerKind p = "g" then
    strTrim (p.data.fromGroup.getD "")
  else if p.data.self then p.data.toUser
  else p.data.fromUser

/-- Conversation id derived from a callback payload:
wk:wId:peerKind:peerId. -/
def callbackConversationId (p : WkCallbackPayload) : String :=
  "wk:" ++ p.data.wId ++ ":" ++ callbackPeerKind p ++ ":" ++ callbackPeerId p

/-- Timestamp field of the callback coerced to a JS number: numbers pass
through, strings go through Number(), absence is a non-number. -/
def callbackTsNum (p : WkCallbackPayload) : JsNumberInput :=
  match p.data.timestamp with
  | some (.num n) => .finite (n : ℚ)
  | some (.str s) => jsNumberOfString s
  | none => .missing

/-- Idempotency key of a callback delivery:
wk:wId:String(newMsgId ?? msgId ?? timestamp ?? now). -/
def callbackDedupeKey (p : WkCallbackPayload) (now : Int) : String :=
  let idStr :=
    match p.data.newMsgId.orElse (fun _ => p.data.msgId.orElse (fun _ => p.data.timestamp)) with
    | some i => i.toJsString
    | none => toString now
  "wk:" ++ p.data.wId ++ ":" ++ idStr

/-- Message kind mapped from the provider messageType code. -/
def kindOfMessageType (messageType : String) : MsgKind :=
  if messageType = "60001" ∨ messageType = "80001" then .text
  else if messageType = "60002" ∨ messageType = "80002" then .image
  else if messageType = "60008" ∨ messageType = "80008" then .file
  else .text

/-- Prefix-anchored mime capture of the regex data:([^;]+);base64, used
for file messages, null when the captured mime trims to nothing. -/
def mimeFromDataUrlStr (contentStr : String) : Option String :=
  if strStartsWith contentStr "data:" then
    let afterData := strDrop contentStr 5
    match strSplitOn afterData ";" with
    | mime :: restHead :: restTail =>
      if mime ≠ "" ∧ strStartsWith (strIntercalate ";" (restHead :: restTail)) "base64," then
        if strTrim mime ≠ "" then some (strTrim mime) else none
      else none
    | _ => none
  else none

/-- The normalized inbound message built by the callback handler for a
payload, given the common fields. The rawPayload argument is the parsed
request body the pick helpers search. -/
def buildCallbackInbound (p : WkCallbackPayload) (rawPayload : JsonValue)
    (messageId : String) (sentAt : Int) (rawStr : String) (rawTruncated : Bool) : Message :=
  let conversationId := callbackConversationId p
  let common : MessagePayload → Message := fun payload =>
    { id := messageId, conversationId := conversationId,
      direction := .inbound, source := .webhook, sentAt := sentAt,
      payload := payload, raw := some rawStr, rawTruncated := rawTruncated }
  match kindOfMessageType p.messageType with
  | .text =>
    let contentStr : Option String :=
      match p.data.content with
      | some (.str s) => some s
      | _ => none
    let inboundText :=
      match contentStr with
      | some s =>
        if strTrim s ≠ "" then s
        else if p.messageType = "60001" ∨ p.messageType = "80001" then "(empty)"
        else "[unsupported messageType]"
      | none =>
        if p.messageType = "60001" ∨ p.messageType = "80001" then "(empty)"
        else "[unsupported messageType]"
    common (.text inboundText)
  | .image =>
    let url := pickHttpUrl rawPayload
    let contentStr := pickStringByPaths rawPayload [["data", "content"], ["content"]]
    let fileName :=
      (pickStringByPaths rawPayload
        [["data", "fileName"], ["data", "filename"], ["data", "name"]]).orElse
        (fun _ => inferFileNameFromUrlOrPath url)
    let dataUrl :=
      match url with
      | some u => u
      | none =>
        match contentStr with
        | some cs =>
          if strStartsWith cs "data:" then cs
          else if isLikelyBase64 cs then "data:image/jpeg;base64," ++ strTrim cs
          else ""
        | none => ""
    common (.image dataUrl (fileName.getD "图片"))
  | .file =>
    let url := pickHttpUrl rawPayload
    let contentStr := pickStringByPaths rawPayload [["data", "content"], ["content"]]
    let xmlTitle := contentStr.bind pickXmlTitle
    let fileName :=
      (((pickStringByPaths rawPayload
        [["data", "fileName"], ["data", "filename"], ["data", "name"]]).orElse
        (fun _ => xmlTitle)).orElse
        (fun _ => inferFileNameFromUrlOrPath url)).getD "unknown.bin"
    let mimeFromDataUrl := contentStr.bind mimeFromDataUrlStr
    let mime :=
      ((pickStringByPaths rawPayload
        [["data", "mime"], ["data", "contentType"], ["mime"], ["contentType"]]).orElse
        (fun _ => mimeFromDataUrl)).getD "application/octet-stream"
    let dataUrl :=
      match url with
      | some u => u
      | none =>
        match contentStr with
        | some cs =>
          if strStartsWith cs "data:" then cs
          else if isLikelyBase64 cs then "data:" ++ mime ++ ";base64," ++ strTrim cs
          else ""
        | none => ""
    common (.file fileName mime dataUrl)

/-- Handler of POST /webhooks/wkteam/callback from app.ts (request path
portion): dedupe check on the derived key, normalization, eager
conversation creation, append, dedupe record, summary touch, persist,
message.created publish, and the shouldAutomate enqueue decision. -/
def webhookCallbackHandler (db : DbV1) (now : Int) (rand : String)
    (rawStr : String) (rawTruncated : Bool) (rawPayload : JsonValue)
    (p : WkCallbackPayload) : WebhookResult :=
  let dedupeKey := callbackDedupeKey p now
  if recordHasTruthy db.webhookDedupeKeys dedupeKey then
    { db := db, status := 200, ok := true, deduped := true, events := [],
      persists := 0, automationEnqueued := false }
  else
    let conversationId := callbackConversationId p
    let sentAt := normalizeEpochMs (callbackTsNum p) now
    let inbound := buildCallbackInbound p rawPayload (makeId "m" now rand) sentAt rawStr rawTruncated
    let convs :=
      if db.conversations.any (fun c => c.id = conversationId) then db.conversations
      else
        ({ id := conversationId,
           title := if callbackPeerKind p = "g" then "群聊 " ++ callbackPeerId p else callbackPeerId p,
           peerId := callbackPeerId p, pinned := false, unreadCount := 0,
           lastMessageId := none, lastActivityAt := now,
           createdAt := now, updatedAt := now } : Conversation) :: db.conversations
    let db1 : DbV1 :=
      { db with
        messages := db.messages ++ [inbound],
        webhookDedupeKeys := recordSet db.webhookDedupeKeys dedupeKey inbound.id,
        conversations := touchConversations convs conversationId inbound.id inbound.sentAt now,
        updatedAt := now }
    let shouldAutomate :=
      db.automationEnabled ∧ ¬ p.data.self ∧
        (p.messageType = "60001" ∨ p.messageType = "80001" ∨ p.messageType = "60002" ∨
         p.messageType = "80002" ∨ p.messageType = "60008" ∨ p.messageType = "80008")
    { db := db1, status := 200, ok := true, deduped := false,
      events := [.messageCreated conversationId inbound.id inbound.kind],
      persists := 1, automationEnqueued := shouldAutomate }

/-- Parsed body of POST /api/conversations/:id/messages after the
per-kind zod schemas (text 1..500, image dataUrl with alt 1..100, file
name 1..200, mime 1..120, dataUrl non-empty). The length bounds hold for
any body reaching the handler core and do not affect the properties
proved below. -/
inductive HumanSendBody where
  | text (text : String)
  | image (dataUrl : String) (alt : String)
  | file (name : String) (mime : String) (dataUrl : String)
deriving DecidableEq, Repr

/-- Response of the human send handler. -/
inductive HumanSendResponse where
  | okMessage (message : Message)
  | apiError (status : Nat) (code : String)
deriving DecidableEq, Repr

/-- Result of the human send handler. relayEnqueued records whether the
handler enqueued the human_send relay workflow on the automation queue. -/
structure HumanSendResult where
  db : DbV1
  response : HumanSendResponse
  events : List SseEvent
  persists : Nat
  relayEnqueued : Bool
deriving DecidableEq, Repr

/-- Handler core of POST /api/conversations/:id/messages from app.ts:
data-URL byte caps for image and file, append without any conversation
existence check, summary touch, persist, message.created publish, and the
guarded fire-and-forget relay enqueue for text messages in wk
conversations. -/
def humanPostMessageHandler (db : DbV1) (now : Int) (rand : String)
    (conversationId : String) (maxDataUrlBytes : Nat)
    (catalog : Option Catalog) (upstream : UpstreamConfig)
    (b : HumanSendBody) : HumanSendResult :=
  let mkMessage : MessagePayload → Message := fun payload =>
    { id := makeId "m" now rand, conversationId := conversationId,
      direction := .outbound, source := .human, sentAt := now, payload := payload }
  let capFailure : Option String :=
    match b with
    | .text _ => none
    | .image dataUrl _ =>
      if utf8Len dataUrl > maxDataUrlBytes then some "image" else none
    | .file _ _ dataUrl =>
      if utf8Len dataUrl > maxDataUrlBytes then some "file" else none
  match capFailure with
  | some _ =>
    { db := db, response := .apiError 400 "DATAURL_TOO_LARGE", events := [],
      persists := 0, relayEnqueued := false }
  | none =>
    let message :=
      match b with
      | .text t => mkMessage (.text t)
      | .image dataUrl alt => mkMessage (.image dataUrl alt)
      | .file name mime dataUrl => mkMessage (.file name mime dataUrl)
    let db1 : DbV1 :=
      { db with
        messages := db.messages ++ [message],
        conversations := touchConversations db.conversations conversationId message.id
          message.sentAt now,
        updatedAt := now }
    let relayEnqueued :=
      match b with
      | .text _ =>
        (parseWkConversationId conversationId).isSome ∧ catalog.isSome ∧
          upstreamConfigured upstream
      | _ => False
    { db := db1, response := .okMessage message,
      events := [.messageCreated conversationId message.id message.kind],
      persists := 1, relayEnqueued := relayEnqueued }

/-- Outcome of the chat completion call as observed by a handler: the
reply content, or a thrown error carrying its message (AI_TIMEOUT
prefixed on aborts). -/
inductive AiOutcome where
  | ok (content : String)
  | thrown (message : String)
deriving DecidableEq, Repr

/-- Mode field of POST /api/conversations/:id/ai-reply. -/
inductive AiReplyMode where
  | returnOnly
  | persist
deriving DecidableEq, Repr

/-- Result of the ai-reply handler. -/
structure AiReplyResult where
  db : DbV1
  status : Nat
  code : Option String
  message : Option Message
  replyText : Option String
  events : List SseEvent
  persists : Nat
deriving DecidableEq, Repr

/-- Handler core of POST /api/conversations/:id/ai-reply from app.ts.
The request sent to the completion client (windowed history, optional
system prompt) does not affect the snapshot contract; its outcome is the
aiOutcome argument. persist mode appends the AI message without any
conversation existence check. -/
def aiReplyHandler (db : DbV1) (conversationId : String) (mode : AiReplyMode)
    (now : Int) (rand : String) (aiOutcome : AiOutcome) : AiReplyResult :=
  match aiOutcome with
  | .thrown msg =>
    let code := if strStartsWith msg "AI_TIMEOUT" then "AI_TIMEOUT" else "AI_UPSTREAM_ERROR"
    { db := db, status := if code = "AI_TIMEOUT" then 504 else 502,
      code := some code, message := none, replyText := none, events := [], persists := 0 }
  | .ok content =>
    match mode with
    | .returnOnly =>
      { db := db, status := 200, code := none, message := none,
        replyText := some content, events := [], persists := 0 }
    | .persist =>
      let aiMessage : Message :=
        { id := makeId "m" now rand, conversationId := conversationId,
          direction := .outbound, source := .ai, sentAt := now,
          payload := .text (if content = "" then "(empty)" else content) }
      let db1 : DbV1 :=
        { db with
          messages := db.messages ++ [aiMessage],
          conversations := touchConversations db.conversations conversationId aiMessage.id
            aiMessage.sentAt now,
          updatedAt := now }
      { db := db1, status := 200, code := none, message := some aiMessage,
        replyText := none,
        events := [.messageCreated conversationId aiMessage.id .text], persists := 1 }

/-- Result of the hydrate handler. -/
structure HydrateResult where
  db : DbV1
  status : Nat
  code : Option String
  message : Option Message
  networkCalled : Bool
  events : List SseEvent
  persists : Nat
deriving DecidableEq, Repr

/-- Mime type chosen for the hydrated data URL: the stored file mime (or
the octet-stream fallback when empty), image/jpeg for images. -/
def hydrateMime : MessagePayload → String
  | .file _ m _ => if m ≠ "" then m else "application/octet-stream"
  | .image _ _ => "image/jpeg"
  | _ => "application/octet-stream"

/-- dataUrl of an image or file payload. -/
def messageDataUrl : Message → Option String
  | { payload := .image dataUrl _, .. } => some dataUrl
  | { payload := .file _ _ dataUrl, .. } => some dataUrl
  | _ => none

/-- Handler of POST /api/messages/:id/hydrate from app.ts: message
lookup, kind gate, embedded-data early return, wk id and raw parameter
extraction, catalog and upstream guards, the cdn download call, base64
extraction, byte cap, in-place message replacement, persist and
message.updated publish. -/
def hydrateHandler (db : DbV1) (messageId : String)
    (catalog : Option Catalog) (upstream : UpstreamConfig)
    (maxDataUrlBytes : Nat) (now : Int) (fetchOutcome : FetchOutcome) : HydrateResult :=
  let noChange : Nat → Option String → Bool → HydrateResult := fun status code networkCalled =>
    { db := db, status := status, code := code, message := none,
      networkCalled := networkCalled, events := [], persists := 0 }
  match db.messages.find? (fun m => m.id = messageId) with
  | none => noChange 404 (some "NOT_FOUND") false
  | some msg =>
    match messageDataUrl msg with
    | none => noChange 400 (some "BAD_REQUEST") false
    | some existingDataUrl =>
      if strStartsWith existingDataUrl "data:" then
        { db := db, status := 200, code := none, message := some msg,
          networkCalled := false, events := [], persists := 0 }
      else
        match parseWkConversationId msg.conversationId with
        | none => noChange 400 (some "BAD_REQUEST") false
        | some _info =>
          let params := extractHydrateParamsFromRaw msg.raw
          match params.cdnUrl with
          | none => noChange 400 (some "BAD_REQUEST") false
          | some cdnUrl =>
            if ¬ isHttpUrl cdnUrl then noChange 400 (some "BAD_REQUEST") false
            else
              match params.aeskey with
              | none => noChange 400 (some "BAD_REQUEST") false
              | some _aeskey =>
                match catalog with
                | none => noChange 503 (some "WKTEAM_CATALOG_UNAVAILABLE") false
                | some cat =>
                  if ¬ upstreamConfigured upstream then
                    noChange 503 (some "UPSTREAM_NOT_CONFIGURED") false
                  else
                    match catalogGet cat "te_shu_cdnDownFile" with
                    | none => noChange 503 (some "UNKNOWN_OPERATION_ID") false
                    | some _ep =>
                      match fetchOutcome with
                      | .httpError _ _ => noChange 502 (some "UPSTREAM_HTTP_ERROR") true
                      | .timeout => noChange 504 (some "UPSTREAM_TIMEOUT") true
                      | .networkError _ => noChange 502 (some "UPSTREAM_NETWORK_ERROR") true
                      | .ok text =>
                        let data : JsonValue :=
                          if text = "" then .null else (jsonParse? text).getD (.str text)
                        match extractBase64FromUpstreamResponse data with
                        | none => noChange 502 (some "UPSTREAM_BAD_RESPONSE") true
                        | some base64 =>
                          let nextDataUrl :=
                            "data:" ++ hydrateMime msg.payload ++ ";base64," ++ base64
                          if utf8Len nextDataUrl > maxDataUrlBytes then
                            noChange 400 (some "DATAURL_TOO_LARGE") true
                          else
                            let nextMessage : Message :=
                              match msg.payload with
                              | .image _ alt => { msg with payload := .image nextDataUrl alt }
                              | .file name m _ => { msg with payload := .file name m nextDataUrl }
                              | other => { msg with payload := other }
                            let idx := db.messages.findIdx (fun m => m.id = messageId)
                            let db1 : DbV1 :=
                              { db with
                                messages := db.messages.set idx nextMessage,
                                updatedAt := now }
                            { db := db1, status := 200, code := none,
                              message := some nextMessage, networkCalled := true,
                              events := [.messageUpdated nextMessage.conversationId
                                nextMessage.id nextMessage.kind],
                              persists := 1 }

/-- Result of the generic proxy handler POST /api/upstream/call. -/
structure UpstreamCallResult where
  status : Nat
  code : Option String
  networkCalled : Bool
deriving DecidableEq, Repr

/-- Handler of POST /api/upstream/call from app.ts: catalog guard first,
then upstream configuration guard, then operation lookup, then the
proxied fetch. The body is taken post-parse (operationId); body shape
failures are orthogonal to the properties below. -/
def upstreamCallHandler (catalog : Option Catalog) (upstream : UpstreamConfig)
    (operationId : String) (fetchOutcome : FetchOutcome) : UpstreamCallResult :=
  match catalog with
  | none => { status := 503, code := some "WKTEAM_CATALOG_UNAVAILABLE", networkCalled := false }
  | some cat =>
    if ¬ upstreamConfigured upstream then
      { status := 503, code := some "UPSTREAM_NOT_CONFIGURED", networkCalled := false }
    else
      match catalogGet cat operationId with
      | none => { status := 400, code := some "UNKNOWN_OPERATION_ID", networkCalled := false }
      | some _ep =>
        match fetchOutcome with
        | .ok _ => { status := 200, code := none, networkCalled := true }
        | .httpError _ _ => { status := 502, code := some "UPSTREAM_HTTP_ERROR", networkCalled := true }
        | .timeout => { status := 504, code := some "UPSTREAM_TIMEOUT", networkCalled := true }
        | .networkError _ => { status := 502, code := some "UPSTREAM_NETWORK_ERROR", networkCalled := true }

/-- Result of the sendUpstreamJson helper inside the webhook automation
closure: parsed body on 2xx, else status, text and an optional error code
(UPSTREAM_TIMEOUT on abort, UPSTREAM_SEND_FAILED on network failure). -/
inductive UpstreamSendOutcome where
  | ok (data : JsonValue)
  | fail (status : Nat) (text : String) (code : Option String)
deriving Repr

/-- sendUpstreamJson from the webhook automation closure, over the fetch
outcome. -/
def sendUpstreamJsonResult (outcome : FetchOutcome) : UpstreamSendOutcome :=
  match outcome with
  | .ok text => .ok (if text = "" then .null else (jsonParse? text).getD (.str text))
  | .httpError s t => .fail s t none
  | .timeout => .fail 504 "aborted" (some "UPSTREAM_TIMEOUT")
  | .networkError m => .fail 502 m (some "UPSTREAM_SEND_FAILED")

/-- cdnUrl picked from the upload response: the cdnUrl string property of
an object body, else the fallback inbound url. -/
def uploadCdnUrl (r : UpstreamSendOutcome) (fallback : String) : String :=
  match r with
  | .ok (.obj fields) =>
    match ((fields.find? (fun p => p.1 = "cdnUrl")).map (fun p => p.2) : Option JsonValue) with
    | some (.str s) => s
    | _ => fallback
  | _ => fallback

/-- Truncated upstream failure message: upstream http status colon text,
first 200 units. -/
def upstreamFailMessage (status : Nat) (text : String) : String :=
  strTake ("upstream http " ++ toString status ++ ": " ++ text) 200

/-- data:mime;base64 capture for file relays, the group possibly empty. -/
def fileDataUrlBase64? (dataUrl : String) : Option String :=
  if strStartsWith dataUrl "data:" then
    let afterData := strDrop dataUrl 5
    match strSplitOn afterData ";" with
    | mime :: restHead :: restTail =>
      let tl := strIntercalate ";" (restHead :: restTail)
      if mime ≠ "" ∧ strStartsWith tl "base64," then some (strDrop tl 7) else none
    | _ => none
  else none

/-- Result of one webhook automation workflow execution. -/
structure WorkflowResult where
  db : DbV1
  events : List SseEvent
  persists : Nat
  upstreamCalls : Nat
deriving DecidableEq, Repr

/-- The webhook-triggered automation workflow from app.ts (the closure
enqueued at the end of the callback handler), dispatching on the inbound
kind: text composes an AI reply, persists and publishes it, then relays
it; image re-uploads and echoes before relaying; file echoes then relays
by base64 or url; every path terminates in exactly one AutomationRun
push followed by a persist. The completion call outcome and the per-call
fetch outcomes are oracle arguments; the injected clock is evaluated to
now as in the handlers. -/
def webhookAutomationWorkflow (db : DbV1) (conversationId : String) (inbound : Message)
    (catalog : Option Catalog) (upstream : UpstreamConfig)
    (openaiHost : String) (openaiModel : String) (now : Int)
    (randRun : String) (randMsg : String)
    (aiOutcome : AiOutcome) (uploadOutcome : FetchOutcome) (sendOutcome : FetchOutcome) :
    WorkflowResult :=
  let runId := makeId "run" now randRun
  let aiModel : Option ModelDesc := some { baseUrlHost := openaiHost, model := openaiModel }
  let baseRun : RunStatus → Option String → Option RunError → Option ModelDesc → AutomationRun :=
    fun status outputMessageId error model =>
      { id := runId, trigger := .webhook, conversationId := conversationId,
        inputMessageId := inbound.id, outputMessageId := outputMessageId,
        status := status, startedAt := now, endedAt := now, error := error, model := model }
  let finish : DbV1 → AutomationRun → List SseEvent → Nat → Nat → WorkflowResult :=
    fun dbCur run events persists upstreamCalls =>
      { db := { dbCur with automationRuns := dbCur.automationRuns ++ [run], updatedAt := now },
        events := events, persists := persists + 1, upstreamCalls := upstreamCalls }
  match inbound.payload with
  | .text _ =>
    match aiOutcome with
    | .thrown msg =>
      let code := if strStartsWith msg "AI_TIMEOUT" then "AI_TIMEOUT" else "AI_UPSTREAM_ERROR"
      finish db (baseRun .failed none (some { code := code, message := msg }) aiModel) [] 0 0
    | .ok content =>
      let aiMessage : Message :=
        { id := makeId "m" now randMsg, conversationId := conversationId,
          direction := .outbound, source := .ai, sentAt := now,
          payload := .text (if content = "" then "(empty)" else content) }
      let db1 : DbV1 :=
        { db with
          messages := db.messages ++ [aiMessage],
          conversations := touchConversations db.conversations conversationId aiMessage.id
            aiMessage.sentAt now,
          updatedAt := now }
      let ev := [SseEvent.messageCreated conversationId aiMessage.id .text]
      let out := some aiMessage.id
      match catalog with
      | none =>
        finish db1 (baseRun .failed out
          (some { code := "WKTEAM_CATALOG_UNAVAILABLE", message := "wkteam catalog unavailable" })
          aiModel) ev 1 0
      | some cat =>
        if ¬ upstreamConfigured upstream then
          finish db1 (baseRun .failed out
            (some { code := "UPSTREAM_NOT_CONFIGURED", message := "upstream not configured" })
            aiModel) ev 1 0
        else
          match parseWkConversationId conversationId with
          | none =>
            finish db1 (baseRun .failed out
              (some { code := "BAD_CONVERSATION_ID", message := "invalid wk conversationId" })
              aiModel) ev 1 0
          | some _info =>
            match catalogGet cat "xiao_xi_fa_song_fa_song_wen_ben_xiao_xi" with
            | none =>
              finish db1 (baseRun .failed out
                (some { code := "UNKNOWN_OPERATION_ID",
                        message := "sendText operationId not found in catalog" })
                aiModel) ev 1 0
            | some _ep =>
              match sendUpstreamJsonResult sendOutcome with
              | .fail status text codeOpt =>
                finish db1 (baseRun .failed out
                  (some { code := codeOpt.getD "UPSTREAM_SEND_FAILED",
                          message := upstreamFailMessage status text })
                  aiModel) ev 1 1
              | .ok _ =>
                finish db1 (baseRun .success out none aiModel) ev 1 1
  | .image dataUrl alt =>
    match catalog with
    | none =>
      finish db (baseRun .failed none
        (some { code := "WKTEAM_CATALOG_UNAVAILABLE", message := "wkteam catalog unavailable" })
        none) [] 0 0
    | some cat =>
      if ¬ upstreamConfigured upstream then
        finish db (baseRun .failed none
          (some { code := "UPSTREAM_NOT_CONFIGURED", message := "upstream not configured" })
          none) [] 0 0
      else
        match parseWkConversationId conversationId with
        | none =>
          finish db (baseRun .failed none
            (some { code := "BAD_CONVERSATION_ID", message := "invalid wk conversationId" })
            none) [] 0 0
        | some _info =>
          if ¬ isHttpUrl dataUrl then
            finish db (baseRun .skipped none
              (some { code := "SKIPPED_NO_HTTP_URL", message := "image.dataUrl is not http(s) url" })
              none) [] 0 0
          else
            match catalogGet cat "te_shu_uploadCdnImage",
                  catalogGet cat "xiao_xi_fa_song_fa_song_tu_pian_xiao_xi2" with
            | some _uploadEp, some _sendEp =>
              let upload := sendUpstreamJsonResult uploadOutcome
              let cdnUrl := uploadCdnUrl upload dataUrl
              let outMessage : Message :=
                { id := makeId "m" now randMsg, conversationId := conversationId,
                  direction := .outbound, source := .system, sentAt := now,
                  payload := .image cdnUrl (if alt = "" then "图片" else alt) }
              let db1 : DbV1 :=
                { db with
                  messages := db.messages ++ [outMessage],
                  conversations := touchConversations db.conversations conversationId
                    outMessage.id outMessage.sentAt now,
                  updatedAt := now }
              let ev := [SseEvent.messageCreated conversationId outMessage.id .image]
              match sendUpstreamJsonResult sendOutcome with
              | .fail status text codeOpt =>
                finish db1 (baseRun .failed (some outMessage.id)
                  (some { code := codeOpt.getD "UPSTREAM_SEND_FAILED",
                          message := upstreamFailMessage status text })
                  none) ev 1 2
              | .ok _ =>
                finish db1 (baseRun .success (some outMessage.id) none none) ev 1 2
            | _, _ =>
              finish db (baseRun .failed none
                (some { code := "UNKNOWN_OPERATION_ID",
                        message := "uploadCdnImage/sendImage2 operationId not found in catalog" })
                none) [] 0 0
  | .file name mime dataUrl =>
    match catalog with
    | none =>
      finish db (baseRun .failed none
        (some { code := "WKTEAM_CATALOG_UNAVAILABLE", message := "wkteam catalog unavailable" })
        none) [] 0 0
    | some cat =>
      if ¬ upstreamConfigured upstream then
        finish db (baseRun .failed none
          (some { code := "UPSTREAM_NOT_CONFIGURED", message := "upstream not configured" })
          none) [] 0 0
      else
        match parseWkConversationId conversationId with
        | none =>
          finish db (baseRun .failed none
            (some { code := "BAD_CONVERSATION_ID", message := "invalid wk conversationId" })
            none) [] 0 0
        | some _info =>
          let fileName := if name = "" then "unknown.bin" else name
          let base64Match := fileDataUrlBase64? dataUrl
          let sendFileBase64Ep := catalogGet cat "xiao_xi_fa_song_sendFileBase64"
          let sendFileEp := catalogGet cat "xiao_xi_fa_song_sendFile"
          let outMessage : Message :=
            { id := makeId "m" now randMsg, conversationId := conversationId,
              direction := .outbound, source := .system, sentAt := now,
              payload := .file fileName mime dataUrl }
          let db1 : DbV1 :=
            { db with
              messages := db.messages ++ [outMessage],
              conversations := touchConversations db.conversations conversationId
                outMessage.id outMessage.sentAt now,
              updatedAt := now }
          let ev := [SseEvent.messageCreated conversationId outMessage.id .file]
          match base64Match, sendFileBase64Ep with
          | some grp, some _ep =>
            if strTrim grp = "" then
              finish db1 (baseRun .skipped (some outMessage.id)
                (some { code := "SKIPPED_EMPTY_BASE64", message := "file dataUrl base64 empty" })
                none) ev 1 0
            else
              match sendUpstreamJsonResult sendOutcome with
              | .fail status text codeOpt =>
                finish db1 (baseRun .failed (some outMessage.id)
                  (some { code := codeOpt.getD "UPSTREAM_SEND_FAILED",
                          message := upstreamFailMessage status text })
                  none) ev 1 1
              | .ok _ =>
                finish db1 (baseRun .success (some outMessage.id) none none) ev 1 1
          | _, _ =>
            if isHttpUrl dataUrl ∧ sendFileEp.isSome then
              match sendUpstreamJsonResult sendOutcome with
              | .fail status text codeOpt =>
                finish db1 (baseRun .failed (some outMessage.id)
                  (some { code := codeOpt.getD "UPSTREAM_SEND_FAILED",
                          message := upstreamFailMessage status text })
                  none) ev 1 1
              | .ok _ =>
                finish db1 (baseRun .success (some outMessage.id) none none) ev 1 1
            else
              finish db1 (baseRun .skipped (some outMessage.id)
                (some { code := "SKIPPED_NO_SENDER",
                        message := "no sendFileBase64/sendFile path available" })
                none) ev 1 0

/-- Parsed body of POST /api/conversations. -/
structure CreateConvBody where
  title : String
  peerId : String
  conversationId : Option String
deriving DecidableEq, Repr

/-- Response of the conversation creation handler. -/
inductive CreateConvResponse where
  | okConversation (conversation : Conversation)
  | apiError (status : Nat) (code : String)
deriving DecidableEq, Repr

/-- Result of the conversation creation handler. -/
structure CreateConvResult where
  db : DbV1
  response : CreateConvResponse
  events : List SseEvent
  persists : Nat
deriving DecidableEq, Repr

/-- The zod shape of the creation body: title 1..40, peerId 1..80,
conversationId 1..120 when present. -/
def createConvBodyValid (b : CreateConvBody) : Bool :=
  decide (1 ≤ strLen b.title) && decide (strLen b.title ≤ 40) &&
  decide (1 ≤ strLen b.peerId) && decide (strLen b.peerId ≤ 80) &&
  (match b.conversationId with
   | some s => decide (1 ≤ strLen s) && decide (strLen s ≤ 120)
   | none => true)

/-- Handler of POST /api/conversations from app.ts: body validation, wk
format validation of a supplied id, peer consistency check, early return
of an existing conversation, creation with persist and a
conversation.changed publish otherwise. -/
def postConversationsHandler (db : DbV1) (now : Int) (rand : String)
    (b : CreateConvBody) : CreateConvResult :=
  let reject : CreateConvResult :=
    { db := db, response := .apiError 400 "BAD_REQUEST", events := [], persists := 0 }
  if ¬ createConvBodyValid b then reject
  else
    let requested : Option String := b.conversationId.map (fun s => strTrim s)
    let requestedTruthy : Bool :=
      match requested with
      | some r => r ≠ ""
      | none => false
    if requestedTruthy ∧ ¬ isValidWkConversationId (requested.getD "") then reject
    else
      let requestedWk :=
        if requestedTruthy then parseWkConversationId (requested.getD "") else none
      if (match requestedWk with
          | some wk => decide (wk.peerId ≠ b.peerId)
          | none => false) then reject
      else
        match (if requestedTruthy then
                db.conversations.find? (fun c => c.id = requested.getD "") else none) with
        | some existed =>
          { db := db, response := .okConversation existed, events := [], persists := 0 }
        | none =>
          let conversation : Conversation :=
            { id := requested.getD (makeId "c" now rand), title := b.title,
              peerId := b.peerId, pinned := false, unreadCount := 0,
              lastMessageId := none, lastActivityAt := now,
              createdAt := now, updatedAt := now }
          let db1 : DbV1 :=
            { db with conversations := conversation :: db.conversations, updatedAt := now }
          { db := db1, response := .okConversation conversation,
            events := [.conversationChanged conversation.id .created], persists := 1 }

/-- Fixed-window rate limiter entry, per client ip. -/
structure RateEntry where
  windowStart : Int
  count : Int
deriving DecidableEq, Repr

/-- Webhook gate configuration: parsed allowlist entries, per-minute rate
limit (zero disables), shared secret. -/
structure WebhookGateConfig where
  allowlist : List String
  ratePerMin : Int
  secret : String
deriving DecidableEq, Repr

/-- Transport data of an inbound webhook request before any body read:
normalized client ip and the three secret carriers. -/
structure WebhookRequestMeta where
  ip : Option String
  headerSecret : Option String
  querySecret : Option String
  pathSecret : Option String
deriving DecidableEq, Repr

/-- Outcome of the webhook admission pipeline. -/
inductive GateOutcome where
  | forbidden
  | rateLimited
  | unauthorized
  | pass
deriving DecidableEq, Repr

/-- Map write on the rate limiter state. -/
def rateSet (m : List (String × RateEntry)) (k : String) (v : RateEntry) :
    List (String × RateEntry) :=
  if m.any (fun p => p.1 = k) then m.map (fun p => if p.1 = k then (k, v) else p)
  else m ++ [(k, v)]

/-- Map read on the rate limiter state. -/
def rateGet (m : List (String × RateEntry)) (k : String) : Option RateEntry :=
  (m.find? (fun p => p.1 = k)).map (fun p => p.2)

/-- Whether any of the three secret carriers equals the configured
shared secret. -/
def secretMatches (cfg : WebhookGateConfig) (r : WebhookRequestMeta) : Bool :=
  r.headerSecret = some cfg.secret ∨ r.querySecret = some cfg.secret ∨
    r.pathSecret = some cfg.secret

/-- The admission pipeline run on every /webhooks/ request before any
route dispatch or body read, in the order of app.ts lines 378-412: ip
allowlist, then the fixed-window per-minute rate limit keyed by client
ip (the counter is bumped before the threshold test), then the shared
secret against header, query parameter or path segment. -/
def webhookGate (cfg : WebhookGateConfig) (rateState : List (String × RateEntry))
    (now : Int) (r : WebhookRequestMeta) : GateOutcome × List (String × RateEntry) :=
  if cfg.allowlist ≠ [] ∧
      ¬ ((match r.ip with
          | some ip => cfg.allowlist.contains ip
          | none => false) = true) then
    (.forbidden, rateState)
  else
    let rateChecked : GateOutcome × List (String × RateEntry) :=
      if cfg.ratePerMin > 0 then
        let key := r.ip.getD "unknown"
        let ws := (Int.fdiv now 60000) * 60000
        let entry : RateEntry :=
          match rateGet rateState key with
          | none => { windowStart := ws, count := 1 }
          | some cur =>
            if cur.windowStart ≠ ws then { windowStart := ws, count := 1 }
            else { windowStart := cur.windowStart, count := cur.count + 1 }
        let st2 := rateSet rateState key entry
        if entry.count > cfg.ratePerMin then (.rateLimited, st2) else (.pass, st2)
      else (.pass, rateState)
    match rateChecked with
    | (.rateLimited, st) => (.rateLimited, st)
    | (_, st) =>
      if secretMatches cfg r then (.pass, st) else (.unauthorized, st)

/-- Steps of one queued FileDb.save job body, in program order: mkdir of
the data directory, write of the uniquely named temp file, atomic rename
over the canonical path. -/
inductive SaveStep where
  | mkdirData
  | writeTmp
  | renameOver
deriving DecidableEq, Repr

/-- Observable events of the FileDb write queue: a step of the i-th
queued save job, or the resolution of the i-th caller promise returned
by save. -/
inductive SaveEvent where
  | step (job : Nat) (s : SaveStep)
  | resolve (job : Nat)
deriving DecidableEq, Repr

/-- The k-th step of a save job body, none past the end. -/
def saveStepAt : Nat → Option SaveStep
  | 0 => some .mkdirData
  | 1 => some .writeTmp
  | 2 => some .renameOver
  | _ => none

/-- Number of steps of job i already present in a trace. -/
def saveProg (tr : List SaveEvent) (i : Nat) : Nat :=
  (tr.filter (fun e =>
    match e with
    | .step j _ => decide (j = i)
    | .resolve _ => false)).length

/-- Small-step semantics of the promise chain in FileDb.save (db.ts):
writeQueue starts resolved; the i-th save call chains its job body with
then onto the tail left by job i-1 and awaits the new tail. A body step
of job i can therefore be scheduled only when all steps of job i-1 have
run (the tail it was chained on has settled), the steps of one body run
in program order, and the caller promise of save i can resolve only once
job i has completed its rename. The scheduler is otherwise free, which
models the event loop interleaving arbitrary other work between steps. -/
inductive SaveQueueStep (n : Nat) : List SaveEvent → List SaveEvent → Prop where
  | runStep (tr : List SaveEvent) (i : Nat) (s : SaveStep)
      (hi : i < n)
      (hs : saveStepAt (saveProg tr i) = some s)
      (hprev : i = 0 ∨ saveProg tr (i - 1) = 3) :
      SaveQueueStep n tr (tr ++ [.step i s])
  | callerResolve (tr : List SaveEvent) (i : Nat)
      (hi : i < n)
      (hdone : saveProg tr i = 3)
      (hnew : SaveEvent.resolve i ∉ tr) :
      SaveQueueStep n tr (tr ++ [.resolve i])

/-- Traces reachable by the FileDb write queue with n enqueued saves. -/
def SaveQueueReachable (n : Nat) (tr : List SaveEvent) : Prop :=
  Relation.ReflTransGen (SaveQueueStep n) [] tr

/-- Settled state of a promise. -/
inductive SettleOutcome where
  | fulfilled
  | rejected
deriving DecidableEq, Repr

/-- Promise-chain semantics of enqueueAutomation at the level of settled
results: run equals tail.then(fn), which executes fn only when the tail
fulfilled and otherwise propagates the rejection without running fn; the
stored queue tail becomes run.catch(noop), which settles fulfilled either
way. Returns whether fn ran, the settlement of run, and the new stored
tail. -/
def enqueueChain (tail : SettleOutcome) (fnOutcome : SettleOutcome) :
    Bool × SettleOutcome × SettleOutcome :=
  match tail with
  | .fulfilled => (true, fnOutcome, .fulfilled)
  | .rejected => (false, .rejected, .fulfilled)

/-- Which of a list of enqueued workflows actually run, given the
settlement each would produce, starting from a given stored tail. -/
def runAutomationQueue (tail : SettleOutcome) : List SettleOutcome → List Bool
  | [] => []
  | fn :: rest =>
    let stepRes := enqueueChain tail fn
    stepRes.1 :: runAutomationQueue stepRes.2.2 rest

/-- Observable events of the automation lane: workflow i begins (its
startedAt clock read), or workflow i settles with an outcome (its
endedAt clock read and terminal record push). -/
inductive AutoEvent where
  | start (job : Nat)
  | settle (job : Nat) (o : SettleOutcome)
deriving DecidableEq, Repr

/-- Whether workflow i has begun in a trace. -/
def autoStarted (tr : List AutoEvent) (i : Nat) : Bool :=
  tr.any (fun e =>
    match e with
    | .start j => decide (j = i)
    | .settle _ _ => false)

/-- Whether workflow i has settled in a trace. -/
def autoSettled (tr : List AutoEvent) (i : Nat) : Bool :=
  tr.any (fun e =>
    match e with
    | .settle j _ => decide (j = i)
    | .start _ => false)

/-- Small-step semantics of the automation queue in app.ts
enqueueAutomation: workflow i is chained with then onto the stored tail
left by enqueue i-1; by enqueueChain that tail settles exactly when
workflow i-1 has settled with either outcome (the stored tail carries
catch, so a rejection of workflow i-1 still fulfils it), so workflow i
can begin only after workflow i-1 settled, and each workflow settles
after it began. The trace position of an event is the value of the
monotone clock at that event. -/
inductive AutoQueueStep (n : Nat) : List AutoEvent → List AutoEvent → Prop where
  | beginJob (tr : List AutoEvent) (i : Nat)
      (hi : i < n)
      (hnew : autoStarted tr i = false)
      (hprev : i = 0 ∨ autoSettled tr (i - 1) = true) :
      AutoQueueStep n tr (tr ++ [.start i])
  | endJob (tr : List AutoEvent) (i : Nat) (o : SettleOutcome)
      (hi : i < n)
      (hstarted : autoStarted tr i = true)
      (hnot : autoSettled tr i = false) :
      AutoQueueStep n tr (tr ++ [.settle i o])

/-- Traces reachable by the automation lane with n enqueued workflows. -/
def AutoQueueReachable (n : Nat) (tr : List AutoEvent) : Prop :=
  Relation.ReflTransGen (AutoQueueStep n) [] tr

/-- Referential integrity invariant of the snapshot: every message
points at an existing conversation. -/
def ConversationRefInvariant (db : DbV1) : Prop :=
  ∀ m ∈ db.messages, ∃ c ∈ db.conversations, c.id = m.conversationId

/-- Truncation toward zero is the identity on integers. -/
theorem jsTrunc_intCast (n : ℤ) : jsTrunc (n : ℚ) = n := by
  unfold jsTrunc
  split
  · exact Int.floor_intCast n
  · exact Int.ceil_intCast n

/-- C8: for every finite numeric provider timestamp the normalized value
is the timestamp scaled by 1000 and truncated to an integer when below
the millisecond epoch threshold and the truncated timestamp otherwise; a
missing or non-finite timestamp normalizes to the supplied fallback; on
integral inputs the scaling is exact multiplication. -/
theorem normalizeEpochMs_seconds_vs_millis :
    (∀ (q : ℚ) (fallback : Int),
      normalizeEpochMs (.finite q) fallback =
        if q < msEpochThreshold then jsTrunc (q * 1000) else jsTrunc q) ∧
    (∀ fallback : Int,
      normalizeEpochMs .missing fallback = fallback ∧
      normalizeEpochMs .nan fallback = fallback ∧
      normalizeEpochMs .posInf fallback = fallback ∧
      normalizeEpochMs .negInf fallback = fallback) ∧
    (∀ (s fallback : Int),
      normalizeEpochMs (.finite (s : ℚ)) fallback =
        if (s : ℚ) < msEpochThreshold then s * 1000 else s) := by
  refine ⟨fun q fb => rfl, fun fb => ⟨rfl, rfl, rfl, rfl⟩, fun s fb => ?_⟩
  have h1 : normalizeEpochMs (.finite (s : ℚ)) fb =
      if (s : ℚ) < msEpochThreshold then jsTrunc ((s : ℚ) * 1000) else jsTrunc (s : ℚ) := rfl
  rw [h1]
  by_cases h : (s : ℚ) < msEpochThreshold
  · rw [if_pos h, if_pos h, show ((s : ℚ) * 1000) = ((s * 1000 : ℤ) : ℚ) by push_cast; ring]
    exact jsTrunc_intCast _
  · rw [if_neg h, if_neg h]
    exact jsTrunc_intCast s

/-- C9: hydrating an existing image or file message whose dataUrl already
starts with the embedded-data scheme returns 200 with the unchanged
message, performs no upstream network call, publishes nothing, persists
nothing, and leaves the snapshot unmodified. -/
theorem hydrate_noop_on_embedded_dataUrl
    (db : DbV1) (messageId : String) (catalog : Option Catalog)
    (upstream : UpstreamConfig) (maxDataUrlBytes : Nat) (now : Int)
    (fetchOutcome : FetchOutcome) (msg : Message) (du : String)
    (hfind : db.messages.find? (fun m => m.id = messageId) = some msg)
    (hdu : messageDataUrl msg = some du)
    (hpre : strStartsWith du "data:" = true) :
    hydrateHandler db messageId catalog upstream maxDataUrlBytes now fetchOutcome =
      { db := db, status := 200, code := none, message := some msg,
        networkCalled := false, events := [], persists := 0 } := by
  unfold hydrateHandler
  rw [hfind]
  simp only [hdu, hpre, if_true]

/-- Concrete run of the hydrate no-op theorem: a single image message
with an embedded dataUrl hydrates to itself without touching anything. -/
theorem hydrate_noop_on_embedded_dataUrl_witness :
    hydrateHandler
      { updatedAt := 0, automationEnabled := false, conversations := [],
        messages := [{ id := "m1", conversationId := "wk:w1:u:p1",
                       direction := .inbound, source := .webhook, sentAt := 3,
                       payload := .image "data:image/png;base64,QUJD" "pic" }],
        automationRuns := [], webhookDedupeKeys := [] }
      "m1" none { baseUrl := "", authorization := "" } 1024 9 (.ok "") =
      { db := { updatedAt := 0, automationEnabled := false, conversations := [],
                messages := [{ id := "m1", conversationId := "wk:w1:u:p1",
                               direction := .inbound, source := .webhook, sentAt := 3,
                               payload := .image "data:image/png;base64,QUJD" "pic" }],
                automationRuns := [], webhookDedupeKeys := [] },
        status := 200, code := none,
        message := some { id := "m1", conversationId := "wk:w1:u:p1",
                          direction := .inbound, source := .webhook, sentAt := 3,
                          payload := .image "data:image/png;base64,QUJD" "pic" },
        networkCalled := false, events := [], persists := 0 } := by
  exact hydrate_noop_on_embedded_dataUrl _ _ _ _ _ _ _ _ _ (by rfl) (by rfl) (by rfl)

/-- C10 counterexample: a POST /api/conversations request supplying a
conversationId that is present in the snapshot but not in wk format is
rejected 400 by the format validation before the existence check, so the
handler does not return the existing conversation. -/
theorem postConversations_existing_nonwk_id_rejected :
    (let db0 : DbV1 :=
      { updatedAt := 0, automationEnabled := false,
        conversations := [{ id := "c_1_abcdef", title := "t", peerId := "p",
                            pinned := false, unreadCount := 0, lastMessageId := none,
                            lastActivityAt := 0, createdAt := 0, updatedAt := 0 }],
        messages := [], automationRuns := [], webhookDedupeKeys := [] }
     let r := postConversationsHandler db0 7 "aaaaaa"
       { title := "t", peerId := "p", conversationId := some "c_1_abcdef" }
     r.response = .apiError 400 "BAD_REQUEST" ∧ r.db = db0 ∧ r.events = [] ∧
       r.persists = 0) := by
  decide

/-- C10 amended: a POST /api/conversations request supplying a well
formed wk conversationId whose peer matches the body and which already
exists in the snapshot gets 200 with the existing conversation and no
mutation, no persist and no event. -/
theorem postConversations_idempotent_on_existing_wk_id
    (db : DbV1) (now : Int) (rand : String) (b : CreateConvBody) (rid : String)
    (existed : Conversation) (wk : WkInfo)
    (hvalid : createConvBodyValid b = true)
    (hreq : b.conversationId = some rid)
    (htrim : strTrim rid = rid)
    (hne : rid ≠ "")
    (hwk : isValidWkConversationId rid = true)
    (hparse : parseWkConversationId rid = some wk)
    (hpeer : wk.peerId = b.peerId)
    (hfound : db.conversations.find? (fun c => c.id = rid) = some existed) :
    postConversationsHandler db now rand b =
      { db := db, response := .okConversation existed, events := [], persists := 0 } := by
  unfold postConversationsHandler
  rw [hreq]
  simp only [Option.map_some', htrim, hvalid, hne, hwk, hparse, hpeer, hfound]
  simp [hwk, hparse, hpeer, hne]
  rw [hfound]

/-- Concrete run of the idempotent-creation theorem on an existing wk
conversation. -/
theorem postConversations_idempotent_on_existing_wk_id_witness :
    postConversationsHandler
      { updatedAt := 0, automationEnabled := false,
        conversations := [{ id := "wk:w1:u:p", title := "t0", peerId := "p",
                            pinned := false, unreadCount := 0, lastMessageId := none,
                            lastActivityAt := 0, createdAt := 0, updatedAt := 0 }],
        messages := [], automationRuns := [], webhookDedupeKeys := [] }
      7 "aaaaaa" { title := "t", peerId := "p", conversationId := some "wk:w1:u:p" } =
      { db := { updatedAt := 0, automationEnabled := false,
                conversations := [{ id := "wk:w1:u:p", title := "t0", peerId := "p",
                                    pinned := false, unreadCount := 0, lastMessageId := none,
                                    lastActivityAt := 0, createdAt := 0, updatedAt := 0 }],
                messages := [], automationRuns := [], webhookDedupeKeys := [] },
        response := .okConversation { id := "wk:w1:u:p", title := "t0", peerId := "p",
                                      pinned := false, unreadCount := 0, lastMessageId := none,
                                      lastActivityAt := 0, createdAt := 0, updatedAt := 0 },
        events := [], persists := 0 } := by
  exact postConversations_idempotent_on_existing_wk_id _ _ _ _ "wk:w1:u:p" _
    { wId := "w1", peerKind := "u", peerId := "p" }
    (by decide) (by decide) (by decide) (by decide) (by decide) (by decide) (by decide)
    (by decide)

/-- C7 counterexample: a webhook request from a non-allowlisted ip that
matches no secret is rejected 403 forbidden by the allowlist stage, not
401 unauthorized, showing the rate/origin gate runs before the shared
secret authentication rather than after it. -/
theorem webhookGate_gate_rejects_before_auth :
    (let cfg : WebhookGateConfig :=
      { allowlist := ["1.2.3.4"], ratePerMin := 0, secret := "topsecret9012" }
     let req : WebhookRequestMeta :=
      { ip := some "9.9.9.9", headerSecret := some "wrong", querySecret := none,
        pathSecret := none }
     secretMatches cfg req = false ∧
       webhookGate cfg [] 1700000000000 req = (.forbidden, []) ∧
       GateOutcome.forbidden ≠ GateOutcome.unauthorized) := by
  decide

/-- C7 amended: the webhook admission pipeline applies the rate/origin
gate first and authentication second, all before any body read: a
non-allowlisted ip is rejected 403 regardless of the secrets sent; with
the allowlist passed, an exhausted fixed-window counter rejects 429
regardless of the secrets sent; only with both gates passed is the
shared secret consulted, any one of header, query or path match being
sufficient, a request matching none being rejected 401. -/
theorem webhookGate_gate_then_auth :
    (∀ (cfg : WebhookGateConfig) (st : List (String × RateEntry)) (now : Int)
        (r : WebhookRequestMeta),
      cfg.allowlist ≠ [] →
      (match r.ip with
       | some ip => cfg.allowlist.contains ip
       | none => false) = false →
      webhookGate cfg st now r = (.forbidden, st)) ∧
    (∀ (cfg : WebhookGateConfig) (st : List (String × RateEntry)) (now : Int)
        (r : WebhookRequestMeta) (cur : RateEntry),
      (cfg.allowlist = [] ∨
        (match r.ip with
         | some ip => cfg.allowlist.contains ip
         | none => false) = true) →
      cfg.ratePerMin > 0 →
      rateGet st (r.ip.getD "unknown") = some cur →
      cur.windowStart = Int.fdiv now 60000 * 60000 →
      cur.count ≥ cfg.ratePerMin →
      (webhookGate cfg st now r).1 = .rateLimited) ∧
    (∀ (cfg : WebhookGateConfig) (st : List (String × RateEntry)) (now : Int)
        (r : WebhookRequestMeta),
      (cfg.allowlist = [] ∨
        (match r.ip with
         | some ip => cfg.allowlist.contains ip
         | none => false) = true) →
      cfg.ratePerMin ≤ 0 →
      webhookGate cfg st now r =
        (if secretMatches cfg r then .pass else .unauthorized, st)) := by
  refine ⟨?_, ?_, ?_⟩
  · intro cfg st now r hne hip
    unfold webhookGate
    rw [hip]
    rw [if_pos ⟨hne, by simp⟩]
  · intro cfg st now r cur hallow hrate hget hws hcount
    unfold webhookGate
    have hip : ¬ (cfg.allowlist ≠ [] ∧
        ¬ (match r.ip with
           | some ip => cfg.allowlist.contains ip
           | none => false) = true) := by
      rcases hallow with h | h
      · simp [h]
      · rw [h]; simp
    rw [if_neg hip]
    simp only [if_pos hrate, hget]
    rw [← hws]
    have hcnt : cur.count + 1 > cfg.ratePerMin := by omega
    simp [hcnt]
  · intro cfg st now r hallow hrate
    unfold webhookGate
    have hip : ¬ (cfg.allowlist ≠ [] ∧
        ¬ (match r.ip with
           | some ip => cfg.allowlist.contains ip
           | none => false) = true) := by
      rcases hallow with h | h
      · simp [h]
      · rw [h]; simp
    rw [if_neg hip]
    have hr : ¬ cfg.ratePerMin > 0 := by omega
    simp only [if_neg hr]
    by_cases hs : secretMatches cfg r
    · simp [hs]
    · simp [hs]

/-- Concrete runs of the staged admission pipeline: a non-allowlisted
ip is 403 despite a valid secret; an exhausted window is 429 despite a
valid secret; with gates passed a wrong secret is 401 and a path secret
alone passes. -/
theorem webhookGate_gate_then_auth_witness :
    (webhookGate { allowlist := ["1.2.3.4"], ratePerMin := 0, secret := "topsecret9012" } []
        1700000000000
        { ip := some "9.9.9.9", headerSecret := some "topsecret9012", querySecret := none,
          pathSecret := none } =
      (.forbidden, [])) ∧
    ((webhookGate { allowlist := [], ratePerMin := 1, secret := "topsecret9012" }
        [("8.8.8.8", { windowStart := 1699999980000, count := 1 })] 1700000000000
        { ip := some "8.8.8.8", headerSecret := some "topsecret9012", querySecret := none,
          pathSecret := none }).1 =
      .rateLimited) ∧
    (webhookGate { allowlist := [], ratePerMin := 0, secret := "topsecret9012" } []
        1700000000000
        { ip := some "8.8.8.8", headerSecret := some "wrong", querySecret := none,
          pathSecret := none } =
      (.unauthorized, [])) ∧
    (webhookGate { allowlist := [], ratePerMin := 0, secret := "topsecret9012" } []
        1700000000000
        { ip := some "8.8.8.8", headerSecret := none, querySecret := none,
          pathSecret := some "topsecret9012" } =
      (.pass, [])) := by
  refine ⟨?_, ?_, ?_, ?_⟩
  · exact webhookGate_gate_then_auth.1 _ _ _ _ (by decide) (by decide)
  · exact webhookGate_gate_then_auth.2.1 _ _ _ _
      { windowStart := 1699999980000, count := 1 } (by decide) (by decide) (by decide)
      (by decide) (by decide)
  · have h := webhookGate_gate_then_auth.2.2
      { allowlist := [], ratePerMin := 0, secret := "topsecret9012" } [] 1700000000000
      { ip := some "8.8.8.8", headerSecret := some "wrong", querySecret := none,
        pathSecret := none } (by decide) (by decide)
    simpa using h
  · have h := webhookGate_gate_then_auth.2.2
      { allowlist := [], ratePerMin := 0, secret := "topsecret9012" } [] 1700000000000
      { ip := some "8.8.8.8", headerSecret := none, querySecret := none,
        pathSecret := some "topsecret9012" } (by decide) (by decide)
    simpa using h

/-- C5 counterexample: with the catalog missing, a human text send to a
wk conversation succeeds with 200 but the relay is silently skipped: no
automation run (failed or otherwise) is recorded and nothing reports a
catalog-unavailable error, contrary to the claimed distinct error for
the human-send-triggered relay. -/
theorem humanSend_relay_silently_skipped_without_catalog :
    (let db0 : DbV1 :=
      { updatedAt := 0, automationEnabled := true,
        conversations := [{ id := "wk:w1:u:p", title := "t", peerId := "p",
                            pinned := false, unreadCount := 0, lastMessageId := none,
                            lastActivityAt := 0, createdAt := 0, updatedAt := 0 }],
        messages := [], automationRuns := [], webhookDedupeKeys := [] }
     let r := humanPostMessageHandler db0 7 "ab12cd" "wk:w1:u:p" 1024 none
       { baseUrl := "https://api.example", authorization := "token12345" } (.text "hi")
     r.response = .okMessage
         { id := "m_7_ab12cd", conversationId := "wk:w1:u:p", direction := .outbound,
           source := .human, sentAt := 7, payload := .text "hi" } ∧
       r.relayEnqueued = false ∧ r.db.automationRuns = [] ∧ r.persists = 1) := by
  refine ⟨by decide, by decide, by decide, by decide⟩

/-- C5 amended: when the catalog failed to load the process still serves
requests, and the catalog-dependent capabilities respond with a distinct
catalog-unavailable error where one is reported at all: the generic
proxy call answers 503 WKTEAM_CATALOG_UNAVAILABLE before any network
call; hydrate answers 503 WKTEAM_CATALOG_UNAVAILABLE once its message
level preconditions pass, before any network call; each webhook-triggered
automation workflow records a failed AutomationRun with code
WKTEAM_CATALOG_UNAVAILABLE and makes no upstream call; the
human-send-triggered relay, however, is silently skipped: the message is
persisted and 200 returned, but no workflow is enqueued and no run or
error records the missing catalog. -/
theorem catalog_unavailable_behaviour :
    (∀ (upstream : UpstreamConfig) (operationId : String) (fo : FetchOutcome),
      upstreamCallHandler none upstream operationId fo =
        { status := 503, code := some "WKTEAM_CATALOG_UNAVAILABLE", networkCalled := false }) ∧
    (∀ (db : DbV1) (messageId : String) (upstream : UpstreamConfig)
        (maxDataUrlBytes : Nat) (now : Int) (fo : FetchOutcome) (msg : Message)
        (du cu ak : String) (info : WkInfo),
      db.messages.find? (fun m => m.id = messageId) = some msg →
      messageDataUrl msg = some du →
      strStartsWith du "data:" = false →
      parseWkConversationId msg.conversationId = some info →
      (extractHydrateParamsFromRaw msg.raw).cdnUrl = some cu →
      isHttpUrl cu = true →
      (extractHydrateParamsFromRaw msg.raw).aeskey = some ak →
      hydrateHandler db messageId none upstream maxDataUrlBytes now fo =
        { db := db, status := 503, code := some "WKTEAM_CATALOG_UNAVAILABLE",
          message := none, networkCalled := false, events := [], persists := 0 }) ∧
    (∀ (db : DbV1) (cid : String) (inbound : Message) (upstream : UpstreamConfig)
        (host mdl : String) (now : Int) (rr rm : String) (content : String)
        (uo so : FetchOutcome) (t : String),
      inbound.payload = .text t →
      (let r := webhookAutomationWorkflow db cid inbound none upstream host mdl now rr rm
        (.ok content) uo so
       r.db.automationRuns = db.automationRuns ++
          [{ id := makeId "run" now rr, trigger := .webhook, conversationId := cid,
             inputMessageId := inbound.id, outputMessageId := some (makeId "m" now rm),
             status := .failed, startedAt := now, endedAt := now,
             error := some { code := "WKTEAM_CATALOG_UNAVAILABLE",
                             message := "wkteam catalog unavailable" },
             model := some { baseUrlHost := host, model := mdl } }] ∧
        r.upstreamCalls = 0)) ∧
    (∀ (db : DbV1) (cid : String) (inbound : Message) (upstream : UpstreamConfig)
        (host mdl : String) (now : Int) (rr rm : String) (ai : AiOutcome)
        (uo so : FetchOutcome) (d a : String),
      inbound.payload = .image d a →
      (let r := webhookAutomationWorkflow db cid inbound none upstream host mdl now rr rm
        ai uo so
       r.db.automationRuns = db.automationRuns ++
          [{ id := makeId "run" now rr, trigger := .webhook, conversationId := cid,
             inputMessageId := inbound.id, outputMessageId := none,
             status := .failed, startedAt := now, endedAt := now,
             error := some { code := "WKTEAM_CATALOG_UNAVAILABLE",
                             message := "wkteam catalog unavailable" },
             model := none }] ∧
        r.db.messages = db.messages ∧ r.upstreamCalls = 0 ∧ r.events = [])) ∧
    (∀ (db : DbV1) (cid : String) (inbound : Message) (upstream : UpstreamConfig)
        (host mdl : String) (now : Int) (rr rm : String) (ai : AiOutcome)
        (uo so : FetchOutcome) (nm mi d : String),
      inbound.payload = .file nm mi d →
      (let r := webhookAutomationWorkflow db cid inbound none upstream host mdl now rr rm
        ai uo so
       r.db.automationRuns = db.automationRuns ++
          [{ id := makeId "run" now rr, trigger := .webhook, conversationId := cid,
             inputMessageId := inbound.id, outputMessageId := none,
             status := .failed, startedAt := now, endedAt := now,
             error := some { code := "WKTEAM_CATALOG_UNAVAILABLE",
                             message := "wkteam catalog unavailable" },
             model := none }] ∧
        r.db.messages = db.messages ∧ r.upstreamCalls = 0 ∧ r.events = [])) ∧
    (∀ (db : DbV1) (now : Int) (rand cid : String) (cap : Nat)
        (upstream : UpstreamConfig) (b : HumanSendBody),
      (humanPostMessageHandler db now rand cid cap none upstream b).relayEnqueued = false ∧
      (humanPostMessageHandler db now rand cid cap none upstream b).db.automationRuns =
        db.automationRuns) := by
  refine ⟨fun upstream opId fo => rfl, ?_, ?_, ?_, ?_, ?_⟩
  · intro db messageId upstream cap now fo msg du cu ak info hfind hdu hpre hwk hcdn hhttp haes
    unfold hydrateHandler
    rw [hfind]
    simp only [hdu, hpre, Bool.false_eq_true, if_false, hwk, hcdn, hhttp, haes]
    simp
  · intro db cid inbound upstream host mdl now rr rm content uo so t hpayload
    unfold webhookAutomationWorkflow
    rw [hpayload]
    exact ⟨rfl, rfl⟩
  · intro db cid inbound upstream host mdl now rr rm ai uo so d a hpayload
    unfold webhookAutomationWorkflow
    rw [hpayload]
    exact ⟨rfl, rfl, rfl, rfl⟩
  · intro db cid inbound upstream host mdl now rr rm ai uo so nm mi d hpayload
    unfold webhookAutomationWorkflow
    rw [hpayload]
    exact ⟨rfl, rfl, rfl, rfl⟩
  · intro db now rand cid cap upstream b
    unfold humanPostMessageHandler
    cases b with
    | text t => exact ⟨by simp, rfl⟩
    | image dataUrl alt =>
      by_cases h : utf8Len dataUrl > cap
      · simp [h]
      · simp [h]
    | file nm mi dataUrl =>
      by_cases h : utf8Len dataUrl > cap
      · simp [h]
      · simp [h]

/-- Concrete runs of the catalog-unavailable theorem: a hydrate with
valid raw parameters and a missing catalog answers 503
WKTEAM_CATALOG_UNAVAILABLE without a network call, and each webhook
workflow kind records the failed run with that code. -/
theorem catalog_unavailable_behaviour_witness :
    (let db0 : DbV1 :=
      { updatedAt := 0, automationEnabled := true, conversations := [],
        messages := [{ id := "m9", conversationId := "wk:w1:u:p", direction := .inbound,
                       source := .webhook, sentAt := 1,
                       payload := .file "f.bin" "application/pdf" "https://cdn.example/f.bin",
                       raw := some "\x7b\"cdnUrl\": \"https://cdn.example/f.bin\", \"aeskey\": \"abc\"\x7d",
                       rawTruncated := false }],
        automationRuns := [], webhookDedupeKeys := [] }
     hydrateHandler db0 "m9" none { baseUrl := "https://u.example", authorization := "tok" }
        2048 9 (.ok "\x7b\x7d") =
      { db := db0, status := 503, code := some "WKTEAM_CATALOG_UNAVAILABLE",
        message := none, networkCalled := false, events := [], persists := 0 }) ∧
    (let inb : Message :=
      { id := "m1", conversationId := "wk:w1:u:p", direction := .inbound,
        source := .webhook, sentAt := 1, payload := .text "hello" }
     let r := webhookAutomationWorkflow
        { updatedAt := 0, automationEnabled := true, conversations := [], messages := [inb],
          automationRuns := [], webhookDedupeKeys := [] }
        "wk:w1:u:p" inb none { baseUrl := "https://u.example", authorization := "tok" }
        "ai.example" "gpt-4o-mini" 9 "r1" "m2" (.ok "hi there") (.ok "") (.ok "")
     r.db.automationRuns =
        [{ id := "run_9_r1", trigger := .webhook, conversationId := "wk:w1:u:p",
           inputMessageId := "m1", outputMessageId := some "m_9_m2",
           status := .failed, startedAt := 9, endedAt := 9,
           error := some { code := "WKTEAM_CATALOG_UNAVAILABLE",
                           message := "wkteam catalog unavailable" },
           model := some { baseUrlHost := "ai.example", model := "gpt-4o-mini" } }] ∧
       r.upstreamCalls = 0) ∧
    (let inb : Message :=
      { id := "m1", conversationId := "wk:w1:u:p", direction := .inbound,
        source := .webhook, sentAt := 1, payload := .image "https://x.example/a.png" "pic" }
     let r := webhookAutomationWorkflow
        { updatedAt := 0, automationEnabled := true, conversations := [], messages := [inb],
          automationRuns := [], webhookDedupeKeys := [] }
        "wk:w1:u:p" inb none { baseUrl := "https://u.example", authorization := "tok" }
        "ai.example" "gpt-4o-mini" 9 "r1" "m2" (.ok "hi") (.ok "") (.ok "")
     r.db.automationRuns =
        [{ id := "run_9_r1", trigger := .webhook, conversationId := "wk:w1:u:p",
           inputMessageId := "m1", outputMessageId := none,
           status := .failed, startedAt := 9, endedAt := 9,
           error := some { code := "WKTEAM_CATALOG_UNAVAILABLE",
                           message := "wkteam catalog unavailable" },
           model := none }] ∧
       r.db.messages = [inb] ∧ r.upstreamCalls = 0 ∧ r.events = []) ∧
    (let inb : Message :=
      { id := "m1", conversationId := "wk:w1:u:p", direction := .inbound,
        source := .webhook, sentAt := 1,
        payload := .file "f.bin" "application/pdf" "https://x.example/f.bin" }
     let r := webhookAutomationWorkflow
        { updatedAt := 0, automationEnabled := true, conversations := [], messages := [inb],
          automationRuns := [], webhookDedupeKeys := [] }
        "wk:w1:u:p" inb none { baseUrl := "https://u.example", authorization := "tok" }
        "ai.example" "gpt-4o-mini" 9 "r1" "m2" (.ok "hi") (.ok "") (.ok "")
     r.db.automationRuns =
        [{ id := "run_9_r1", trigger := .webhook, conversationId := "wk:w1:u:p",
           inputMessageId := "m1", outputMessageId := none,
           status := .failed, startedAt := 9, endedAt := 9,
           error := some { code := "WKTEAM_CATALOG_UNAVAILABLE",
                           message := "wkteam catalog unavailable" },
           model := none }] ∧
       r.db.messages = [inb] ∧ r.upstreamCalls = 0 ∧ r.events = []) := by
  refine ⟨?_, ?_, ?_, ?_⟩
  · exact catalog_unavailable_behaviour.2.1 _ "m9" _ 2048 9 (.ok "\x7b\x7d")
      { id := "m9", conversationId := "wk:w1:u:p", direction := .inbound,
        source := .webhook, sentAt := 1,
        payload := .file "f.bin" "application/pdf" "https://cdn.example/f.bin",
        raw := some "\x7b\"cdnUrl\": \"https://cdn.example/f.bin\", \"aeskey\": \"abc\"\x7d",
        rawTruncated := false }
      "https://cdn.example/f.bin" "https://cdn.example/f.bin" "abc"
      { wId := "w1", peerKind := "u", peerId := "p" }
      (by decide) (by decide) (by decide) (by decide) (by decide) (by decide) (by decide)
  · exact catalog_unavailable_behaviour.2.2.1 _ "wk:w1:u:p" _ _ "ai.example" "gpt-4o-mini"
      9 "r1" "m2" "hi there" (.ok "") (.ok "") "hello" (by decide)
  · exact catalog_unavailable_behaviour.2.2.2.1 _ "wk:w1:u:p" _ _ "ai.example" "gpt-4o-mini"
      9 "r1" "m2" (.ok "hi") (.ok "") (.ok "") "https://x.example/a.png" "pic" (by decide)
  · exact catalog_unavailable_behaviour.2.2.2.2.1 _ "wk:w1:u:p" _ _ "ai.example" "gpt-4o-mini"
      9 "r1" "m2" (.ok "hi") (.ok "") (.ok "") "f.bin" "application/pdf"
      "https://x.example/f.bin" (by decide)

set_option maxRecDepth 100000 in
set_option maxHeartbeats 1600000 in
/-- C6 counterexample: the webhook callback handler persists an
image message whose dataUrl (1050 utf-8 bytes) exceeds the smallest
admissible MAX_DATAURL_BYTES configuration (1024) and answers plain 200,
with no DATAURL_TOO_LARGE rejection: the cap is not enforced on webhook
ingestion. -/
theorem webhookCallback_persists_oversized_dataUrl :
    (let bigUrl : String := "https://cdn.example/" ++ String.mk (List.replicate 1030 'a')
     let p : WkCallbackPayload :=
       { messageType := "60002",
         data := { wId := "w1", fromUser := "u1", toUser := "me",
                   newMsgId := some (.num 9001) } }
     let rawPayload : JsonValue :=
       .obj [("messageType", .str "60002"),
             ("data", .obj [("wId", .str "w1"), ("fromUser", .str "u1"),
                            ("toUser", .str "me"), ("newMsgId", .num 9001),
                            ("url", .str bigUrl)])]
     let db0 : DbV1 :=
       { updatedAt := 0, automationEnabled := false, conversations := [], messages := [],
         automationRuns := [], webhookDedupeKeys := [] }
     let r := webhookCallbackHandler db0 7 "ab12cd" "(raw)" true rawPayload p
     r.status = 200 ∧ r.ok = true ∧ r.deduped = false ∧ r.persists = 1 ∧
       r.db.messages.map (fun m => messageDataUrl m) = [some bigUrl] ∧
       utf8Len bigUrl = 1050 ∧ 1050 > 1024) := by
  exact ⟨rfl, rfl, rfl, rfl, rfl, rfl, by decide⟩

/-- C6 amended: the data-URL byte cap is enforced with
DATAURL_TOO_LARGE and without persisting on the human send paths (image
and file) and on hydration; webhook-ingested image and file payloads,
however, are persisted without any cap check (see the counterexample). -/
theorem dataurl_cap_enforced_on_send_and_hydrate :
    (∀ (db : DbV1) (now : Int) (rand cid : String) (cap : Nat)
        (catalog : Option Catalog) (upstream : UpstreamConfig) (dataUrl alt : String),
      utf8Len dataUrl > cap →
      humanPostMessageHandler db now rand cid cap catalog upstream (.image dataUrl alt) =
        { db := db, response := .apiError 400 "DATAURL_TOO_LARGE", events := [],
          persists := 0, relayEnqueued := false }) ∧
    (∀ (db : DbV1) (now : Int) (rand cid : String) (cap : Nat)
        (catalog : Option Catalog) (upstream : UpstreamConfig) (nm mi dataUrl : String),
      utf8Len dataUrl > cap →
      humanPostMessageHandler db now rand cid cap catalog upstream (.file nm mi dataUrl) =
        { db := db, response := .apiError 400 "DATAURL_TOO_LARGE", events := [],
          persists := 0, relayEnqueued := false }) ∧
    (∀ (db : DbV1) (messageId : String) (cat : Catalog) (upstream : UpstreamConfig)
        (cap : Nat) (now : Int) (text : String) (msg : Message) (du cu ak b64 : String)
        (info : WkInfo) (ep : Endpoint),
      db.messages.find? (fun m => m.id = messageId) = some msg →
      messageDataUrl msg = some du →
      strStartsWith du "data:" = false →
      parseWkConversationId msg.conversationId = some info →
      (extractHydrateParamsFromRaw msg.raw).cdnUrl = some cu →
      isHttpUrl cu = true →
      (extractHydrateParamsFromRaw msg.raw).aeskey = some ak →
      upstreamConfigured upstream = true →
      catalogGet cat "te_shu_cdnDownFile" = some ep →
      extractBase64FromUpstreamResponse
        (if text = "" then .null else (jsonParse? text).getD (.str text)) = some b64 →
      utf8Len ("data:" ++ hydrateMime msg.payload ++ ";base64," ++ b64) > cap →
      hydrateHandler db messageId (some cat) upstream cap now (.ok text) =
        { db := db, status := 400, code := some "DATAURL_TOO_LARGE", message := none,
          networkCalled := true, events := [], persists := 0 }) := by
  refine ⟨?_, ?_, ?_⟩
  · intro db now rand cid cap catalog upstream dataUrl alt hsize
    unfold humanPostMessageHandler
    simp [hsize]
  · intro db now rand cid cap catalog upstream nm mi dataUrl hsize
    unfold humanPostMessageHandler
    simp [hsize]
  · intro db messageId cat upstream cap now text msg du cu ak b64 info ep
      hfind hdu hpre hwk hcdn hhttp haes hup hep hb64 hsize
    unfold hydrateHandler
    rw [hfind]
    simp only [hdu, hpre, Bool.false_eq_true, if_false, hwk, hcdn, hhttp, haes, hup,
      Bool.not_true, hep, hb64, hsize]
    simp [hup, hhttp, hsize]

set_option maxRecDepth 100000 in
set_option maxHeartbeats 1600000 in
/-- Concrete runs of the cap theorem: a 1052-byte image dataUrl is
rejected on human send under the 1024-byte cap without mutation, and a
hydration producing a 1128-byte dataUrl is rejected with
DATAURL_TOO_LARGE after the download, nothing persisted. -/
theorem dataurl_cap_enforced_on_send_and_hydrate_witness :
    (humanPostMessageHandler
       { updatedAt := 0, automationEnabled := false, conversations := [], messages := [],
         automationRuns := [], webhookDedupeKeys := [] }
       7 "ab12cd" "wk:w1:u:p" 1024 none { baseUrl := "", authorization := "" }
       (.image ("data:image/png;base64," ++ String.mk (List.replicate 1030 'Q')) "pic") =
       { db := { updatedAt := 0, automationEnabled := false, conversations := [],
                 messages := [], automationRuns := [], webhookDedupeKeys := [] },
         response := .apiError 400 "DATAURL_TOO_LARGE", events := [], persists := 0,
         relayEnqueued := false }) ∧
    (let msg0 : Message :=
       { id := "m9", conversationId := "wk:w1:u:p", direction := .inbound,
         source := .webhook, sentAt := 1,
         payload := .file "f.bin" "application/pdf" "https://cdn.example/f.bin",
         raw := some "\x7b\"cdnUrl\": \"https://cdn.example/f.bin\", \"aeskey\": \"abc\"\x7d",
         rawTruncated := false }
     let db0 : DbV1 :=
       { updatedAt := 0, automationEnabled := false, conversations := [],
         messages := [msg0], automationRuns := [], webhookDedupeKeys := [] }
     hydrateHandler db0 "m9"
       (some [("te_shu_cdnDownFile",
               { operationId := "te_shu_cdnDownFile", method := "POST",
                 path := "/cdnDownFile" })])
       { baseUrl := "https://u.example", authorization := "tok" } 1024 9
       (.ok ("\x7b\"base64\": \"" ++ String.mk (List.replicate 1100 'Q') ++ "\"\x7d")) =
       { db := db0, status := 400, code := some "DATAURL_TOO_LARGE", message := none,
         networkCalled := true, events := [], persists := 0 }) := by
  refine ⟨?_, ?_⟩
  · exact dataurl_cap_enforced_on_send_and_hydrate.1 _ 7 "ab12cd" "wk:w1:u:p" 1024 none
      _ _ "pic" (by decide)
  · exact dataurl_cap_enforced_on_send_and_hydrate.2.2 _ "m9" _ _ 1024 9 _
      { id := "m9", conversationId := "wk:w1:u:p", direction := .inbound,
        source := .webhook, sentAt := 1,
        payload := .file "f.bin" "application/pdf" "https://cdn.example/f.bin",
        raw := some "\x7b\"cdnUrl\": \"https://cdn.example/f.bin\", \"aeskey\": \"abc\"\x7d",
        rawTruncated := false }
      "https://cdn.example/f.bin" "https://cdn.example/f.bin" "abc"
      (String.mk (List.replicate 1100 'Q'))
      { wId := "w1", peerKind := "u", peerId := "p" }
      { operationId := "te_shu_cdnDownFile", method := "POST", path := "/cdnDownFile" }
      (by decide) (by decide) (by decide) (by decide) (by decide) (by decide) (by decide)
      (by decide) (by decide) (by decide) (by decide)

/-- find? after the in-place update of recordSet, when the key occurs. -/
theorem find?_map_recordSet (m : List (String × String)) (k v : String)
    (h : m.any (fun p => p.1 = k) = true) :
    (m.map (fun p => if p.1 = k then (k, v) else p)).find? (fun p => p.1 = k) =
      some (k, v) := by
  induction m with
  | nil => simp at h
  | cons a as ih =>
    by_cases hak : a.1 = k
    · simp only [List.map_cons, if_pos hak]
      exact List.find?_cons_of_pos _ (by simp)
    · simp only [List.map_cons, if_neg hak]
      rw [List.find?_cons_of_neg _ (by simp [hak])]
      apply ih
      simp only [List.any_cons, Bool.or_eq_true, decide_eq_true_eq] at h
      rcases h with h | h
      · exact absurd h hak
      · exact h

/-- find? after appending a fresh binding, when the key is absent. -/
theorem find?_append_fresh (m : List (String × String)) (k v : String)
    (h : m.any (fun p => p.1 = k) = false) :
    (m ++ [(k, v)]).find? (fun p => p.1 = k) = some (k, v) := by
  induction m with
  | nil =>
    simp only [List.nil_append]
    exact List.find?_cons_of_pos _ (by simp)
  | cons a as ih =>
    simp only [List.any_cons, Bool.or_eq_false_iff, decide_eq_false_iff_not] at h
    rw [List.cons_append, List.find?_cons_of_neg _ (by simp [h.1])]
    exact ih (by simp [h.2])

/-- Reading back the key just written by recordSet. -/
theorem recordGet_recordSet_self (m : List (String × String)) (k v : String) :
    recordGet (recordSet m k v) k = some v := by
  unfold recordGet recordSet
  by_cases h : m.any (fun p => p.1 = k) = true
  · rw [if_pos h, find?_map_recordSet m k v h]
    rfl
  · rw [if_neg h, find?_append_fresh m k v (by simp only [Bool.not_eq_true] at h; exact h)]
    rfl

/-- The truthiness dedupe check succeeds on the key just recorded with a
non-empty message id. -/
theorem recordHasTruthy_recordSet_self (m : List (String × String)) (k v : String)
    (hv : v ≠ "") : recordHasTruthy (recordSet m k v) k = true := by
  unfold recordHasTruthy
  rw [recordGet_recordSet_self]
  simp [hv]

/-- Generated ids are never the empty string. -/
theorem makeId_ne_empty (t : String) (n : Int) (r : String) (h : t.data ≠ []) :
    makeId t n r ≠ "" := by
  intro hEq
  have hd := congrArg String.data hEq
  simp only [makeId, String.data_append] at hd
  have hlen := congrArg List.length hd
  simp only [List.length_append] at hlen
  have h1 : ("_".data).length = 1 := rfl
  have h0 : ("".data).length = 0 := rfl
  simp only [h1, h0] at hlen
  have hpos : 0 < t.data.length := List.length_pos.mpr h
  omega

/-- The id of the normalized inbound callback message is the id passed
through the common fields, whatever the payload kind. -/
theorem buildCallbackInbound_id (p : WkCallbackPayload) (rawPayload : JsonValue)
    (messageId : String) (sentAt : Int) (rawStr : String) (rawTruncated : Bool) :
    (buildCallbackInbound p rawPayload messageId sentAt rawStr rawTruncated).id =
      messageId := by
  unfold buildCallbackInbound
  cases h : kindOfMessageType p.messageType <;> simp [h]

/-- The callback dedupe key does not depend on the clock when any
provider-native id field is present. -/
theorem callbackDedupeKey_indep (p : WkCallbackPayload) (n1 n2 : Int)
    (h : p.data.newMsgId.isSome ∨ p.data.msgId.isSome ∨ p.data.timestamp.isSome) :
    callbackDedupeKey p n1 = callbackDedupeKey p n2 := by
  unfold callbackDedupeKey
  rcases h1 : p.data.newMsgId with _ | x
  · rcases h2 : p.data.msgId with _ | y
    · rcases h3 : p.data.timestamp with _ | z
      · rw [h1, h2, h3] at h
        simp at h
      · simp [h1, h2, h3, Option.orElse]
    · simp [h1, h2, Option.orElse]
  · simp [h1, Option.orElse]

/-- The callback handler on an already-recorded key answers the deduped
response with the snapshot untouched. -/
theorem webhookCallbackHandler_deduped (db : DbV1) (now : Int) (rand rawStr : String)
    (rt : Bool) (rp : JsonValue) (p : WkCallbackPayload)
    (h : recordHasTruthy db.webhookDedupeKeys (callbackDedupeKey p now) = true) :
    webhookCallbackHandler db now rand rawStr rt rp p =
      { db := db, status := 200, ok := true, deduped := true, events := [],
        persists := 0, automationEnqueued := false } := by
  unfold webhookCallbackHandler
  rw [if_pos h]

/-- A fresh callback delivery appends exactly one message. -/
theorem webhookCallbackHandler_fresh_messages_length (db : DbV1) (now : Int)
    (rand rawStr : String) (rt : Bool) (rp : JsonValue) (p : WkCallbackPayload)
    (h : recordHasTruthy db.webhookDedupeKeys (callbackDedupeKey p now) = false) :
    (webhookCallbackHandler db now rand rawStr rt rp p).db.messages.length =
      db.messages.length + 1 := by
  unfold webhookCallbackHandler
  rw [if_neg (by rw [h]; simp)]
  simp

/-- A fresh callback delivery records its key against the id of the new
message. -/
theorem webhookCallbackHandler_fresh_keys (db : DbV1) (now : Int)
    (rand rawStr : String) (rt : Bool) (rp : JsonValue) (p : WkCallbackPayload)
    (h : recordHasTruthy db.webhookDedupeKeys (callbackDedupeKey p now) = false) :
    (webhookCallbackHandler db now rand rawStr rt rp p).db.webhookDedupeKeys =
      recordSet db.webhookDedupeKeys (callbackDedupeKey p now) (makeId "m" now rand) := by
  unfold webhookCallbackHandler
  rw [if_neg (by rw [h]; simp)]
  dsimp only
  rw [buildCallbackInbound_id]

/-- C1: a webhook delivery whose computed idempotency key is already in
the dedupe map answers 200 with deduped true and performs no mutation,
no persist, no publish and no automation enqueue, on both webhook
endpoints; and processing the same callback payload twice (the key
derived from provider-native ids) persists exactly one message, the
second delivery being deduped and changing nothing. -/
theorem webhook_dedupe_idempotent :
    (∀ (db : DbV1) (now : Int) (rand : String) (b : WkMessagesBody),
      recordHasTruthy db.webhookDedupeKeys b.dedupeKey = true →
      webhookMessagesHandler db now rand b =
        { db := db, status := 200, ok := true, deduped := true, events := [],
          persists := 0, automationEnqueued := false }) ∧
    (∀ (db : DbV1) (now : Int) (rand rawStr : String) (rawTruncated : Bool)
        (rawPayload : JsonValue) (p : WkCallbackPayload),
      recordHasTruthy db.webhookDedupeKeys (callbackDedupeKey p now) = true →
      webhookCallbackHandler db now rand rawStr rawTruncated rawPayload p =
        { db := db, status := 200, ok := true, deduped := true, events := [],
          persists := 0, automationEnqueued := false }) ∧
    (∀ (db : DbV1) (now1 now2 : Int) (rand1 rand2 rawStr1 rawStr2 : String)
        (rt1 rt2 : Bool) (rp1 rp2 : JsonValue) (p : WkCallbackPayload),
      recordHasTruthy db.webhookDedupeKeys (callbackDedupeKey p now1) = false →
      (p.data.newMsgId.isSome ∨ p.data.msgId.isSome ∨ p.data.timestamp.isSome) →
      (let r1 := webhookCallbackHandler db now1 rand1 rawStr1 rt1 rp1 p
       let r2 := webhookCallbackHandler r1.db now2 rand2 rawStr2 rt2 rp2 p
       r1.db.messages.length = db.messages.length + 1 ∧
         r2.deduped = true ∧ r2.db = r1.db ∧ r2.events = [] ∧ r2.persists = 0 ∧
         r2.automationEnqueued = false)) := by
  refine ⟨?_, ?_, ?_⟩
  · intro db now rand b h
    unfold webhookMessagesHandler
    rw [if_pos h]
  · intro db now rand rawStr rawTruncated rawPayload p h
    exact webhookCallbackHandler_deduped db now rand rawStr rawTruncated rawPayload p h
  · intro db now1 now2 rand1 rand2 rawStr1 rawStr2 rt1 rt2 rp1 rp2 p hk hid
    have hkey : callbackDedupeKey p now2 = callbackDedupeKey p now1 :=
      callbackDedupeKey_indep p now2 now1 hid
    have hne : makeId "m" now1 rand1 ≠ "" := makeId_ne_empty "m" now1 rand1 (by decide)
    have hchk : recordHasTruthy
        (webhookCallbackHandler db now1 rand1 rawStr1 rt1 rp1 p).db.webhookDedupeKeys
        (callbackDedupeKey p now2) = true := by
      rw [webhookCallbackHandler_fresh_keys db now1 rand1 rawStr1 rt1 rp1 p hk, hkey]
      exact recordHasTruthy_recordSet_self _ _ _ hne
    have h2 := webhookCallbackHandler_deduped
      (webhookCallbackHandler db now1 rand1 rawStr1 rt1 rp1 p).db now2 rand2 rawStr2
      rt2 rp2 p hchk
    dsimp only
    rw [h2]
    exact ⟨webhookCallbackHandler_fresh_messages_length db now1 rand1 rawStr1 rt1 rp1 p hk,
      rfl, rfl, rfl, rfl, rfl⟩

/-- Concrete runs of the dedupe theorem: a recorded key on each endpoint
answers deduped with nothing changed, and the same callback payload
delivered twice into an empty snapshot persists exactly one message. -/
theorem webhook_dedupe_idempotent_witness :
    (webhookMessagesHandler
        { updatedAt := 0, automationEnabled := true, conversations := [], messages := [],
          automationRuns := [], webhookDedupeKeys := [("k1", "m_1_aa")] }
        7 "ab12cd" { dedupeKey := "k1", conversationId := "c1", text := some "hi",
                     sentAt := none } =
      { db := { updatedAt := 0, automationEnabled := true, conversations := [],
                messages := [], automationRuns := [],
                webhookDedupeKeys := [("k1", "m_1_aa")] },
        status := 200, ok := true, deduped := true, events := [], persists := 0,
        automationEnqueued := false }) ∧
    (webhookCallbackHandler
        { updatedAt := 0, automationEnabled := true, conversations := [], messages := [],
          automationRuns := [], webhookDedupeKeys := [("wk:w1:9001", "m_1_aa")] }
        7 "ab12cd" "(raw)" false (.obj [])
        { messageType := "60001",
          data := { wId := "w1", fromUser := "u1", toUser := "me",
                    newMsgId := some (.num 9001), content := some (.str "hello") } } =
      { db := { updatedAt := 0, automationEnabled := true, conversations := [],
                messages := [], automationRuns := [],
                webhookDedupeKeys := [("wk:w1:9001", "m_1_aa")] },
        status := 200, ok := true, deduped := true, events := [], persists := 0,
        automationEnqueued := false }) ∧
    (let db0 : DbV1 :=
      { updatedAt := 0, automationEnabled := false, conversations := [], messages := [],
        automationRuns := [], webhookDedupeKeys := [] }
     let p : WkCallbackPayload :=
      { messageType := "60001",
        data := { wId := "w1", fromUser := "u1", toUser := "me",
                  newMsgId := some (.num 9001), content := some (.str "hello") } }
     let r1 := webhookCallbackHandler db0 7 "ab12cd" "(raw)" false (.obj []) p
     let r2 := webhookCallbackHandler r1.db 8 "ef34gh" "(raw)" false (.obj []) p
     r1.db.messages.length = db0.messages.length + 1 ∧
       r2.deduped = true ∧ r2.db = r1.db ∧ r2.events = [] ∧ r2.persists = 0 ∧
       r2.automationEnqueued = false) := by
  refine ⟨?_, ?_, ?_⟩
  · exact webhook_dedupe_idempotent.1 _ 7 "ab12cd" _ (by decide)
  · exact webhook_dedupe_idempotent.2.1 _ 7 "ab12cd" "(raw)" false (.obj []) _ (by decide)
  · exact webhook_dedupe_idempotent.2.2 _ 7 8 "ab12cd" "ef34gh" "(raw)" "(raw)" false false
      (.obj []) (.obj []) _ (by decide) (by decide)

/-- The summary touch keeps every conversation id present. -/
theorem touchConversations_preserves_exists (convs : List Conversation)
    (cid lmid : String) (la nw : Int) (t : String)
    (h : ∃ c ∈ convs, c.id = t) :
    ∃ c ∈ touchConversations convs cid lmid la nw, c.id = t := by
  obtain ⟨c, hc, hid⟩ := h
  unfold touchConversations
  refine ⟨_, List.mem_map_of_mem _ hc, ?_⟩
  by_cases hcc : c.id = cid
  · rw [if_pos hcc]
    exact hid
  · rw [if_neg hcc]
    exact hid

/-- The normalized inbound callback message belongs to the derived
conversation. -/
theorem buildCallbackInbound_conversationId (p : WkCallbackPayload)
    (rawPayload : JsonValue) (messageId : String) (sentAt : Int) (rawStr : String)
    (rawTruncated : Bool) :
    (buildCallbackInbound p rawPayload messageId sentAt rawStr rawTruncated).conversationId =
      callbackConversationId p := by
  unfold buildCallbackInbound
  cases h : kindOfMessageType p.messageType <;> simp [h]

/-- Appending one message to a snapshot whose target conversation exists
preserves referential integrity through the summary touch. -/
theorem conversationRef_after_append (db : DbV1) (msg : Message)
    (convs2 : List Conversation) (cid lm : String) (la nw : Int)
    (hinv : ConversationRefInvariant db)
    (hmc : msg.conversationId = cid)
    (hsup : ∀ t, (∃ c ∈ db.conversations, c.id = t) → ∃ c ∈ convs2, c.id = t)
    (hex : ∃ c ∈ convs2, c.id = cid) :
    ∀ m ∈ db.messages ++ [msg],
      ∃ c ∈ touchConversations convs2 cid lm la nw, c.id = m.conversationId := by
  intro m hm
  rcases List.mem_append.mp hm with hm | hm
  · exact touchConversations_preserves_exists _ _ _ _ _ _ (hsup _ (hinv m hm))
  · rcases List.mem_singleton.mp hm with rfl
    rw [hmc]
    exact touchConversations_preserves_exists _ _ _ _ _ _ hex

/-- Existence of a conversation id is preserved by the eager-create cons
branch. -/
theorem exists_id_cons (c0 : Conversation) (convs : List Conversation) (t : String)
    (h : ∃ c ∈ convs, c.id = t) : ∃ c ∈ c0 :: convs, c.id = t := by
  obtain ⟨c, hc, hid⟩ := h
  exact ⟨c, List.mem_cons_of_mem _ hc, hid⟩

/-- A successful any over ids yields the witnessing conversation. -/
theorem exists_of_any_id (convs : List Conversation) (t : String)
    (h : convs.any (fun c => c.id = t) = true) : ∃ c ∈ convs, c.id = t := by
  rcases List.any_eq_true.mp h with ⟨c, hc, hp⟩
  exact ⟨c, hc, of_decide_eq_true hp⟩

/-- Referential integrity after the eager-create-or-reuse branch shared
by the two webhook ingestion handlers. -/
theorem conversationRef_fresh_branch (db : DbV1) (msg : Message) (newc : Conversation)
    (cid lm : String) (la nw : Int)
    (hinv : ConversationRefInvariant db) (hmc : msg.conversationId = cid)
    (hnewc : newc.id = cid) :
    ∀ m ∈ db.messages ++ [msg],
      ∃ c ∈ touchConversations
        (if db.conversations.any (fun c => c.id = cid) then db.conversations
         else newc :: db.conversations) cid lm la nw, c.id = m.conversationId := by
  by_cases hany : db.conversations.any (fun c => c.id = cid) = true
  · rw [if_pos hany]
    exact conversationRef_after_append db msg db.conversations cid lm la nw hinv hmc
      (fun t ht => ht) (exists_of_any_id _ _ hany)
  · rw [if_neg hany]
    exact conversationRef_after_append db msg (newc :: db.conversations) cid lm la nw hinv
      hmc (fun t ht => exists_id_cons _ _ _ ht) ⟨newc, List.mem_cons_self _ _, hnewc⟩

/-- C2 counterexample: a human send into a conversation id that does not
exist appends the message anyway (200, one message persisted) with no
conversation created, so the resulting snapshot violates the
message-references-conversation invariant. -/
theorem humanSend_appends_without_conversation :
    (let db0 : DbV1 :=
      { updatedAt := 0, automationEnabled := false, conversations := [], messages := [],
        automationRuns := [], webhookDedupeKeys := [] }
     let r := humanPostMessageHandler db0 5 "ab12cd" "wk:w1:u:p9" 1024 none
       { baseUrl := "", authorization := "" } (.text "hi")
     r.response = .okMessage { id := "m_5_ab12cd", conversationId := "wk:w1:u:p9",
                               direction := .outbound, source := .human, sentAt := 5,
                               payload := .text "hi" } ∧
       r.db.conversations = [] ∧ r.db.messages.length = 1 ∧
       ¬ ConversationRefInvariant r.db) := by
  refine ⟨by decide, by decide, by decide, ?_⟩
  intro h
  obtain ⟨c, hc, _⟩ := h
    { id := "m_5_ab12cd", conversationId := "wk:w1:u:p9", direction := .outbound,
      source := .human, sentAt := 5, payload := .text "hi" } (by decide)
  exact List.not_mem_nil c hc

/-- C2 amended: webhook ingestion (both endpoints) preserves the
message-references-conversation invariant unconditionally, creating the
conversation eagerly when missing; the human send, the ai-reply persist
and the automation workflow append without any existence check and
preserve the invariant only when the target conversation already exists
in the snapshot. -/
theorem conversation_ref_invariant_preserved :
    (∀ (db : DbV1) (now : Int) (rand : String) (b : WkMessagesBody),
      ConversationRefInvariant db →
      ConversationRefInvariant (webhookMessagesHandler db now rand b).db) ∧
    (∀ (db : DbV1) (now : Int) (rand rawStr : String) (rt : Bool) (rp : JsonValue)
        (p : WkCallbackPayload),
      ConversationRefInvariant db →
      ConversationRefInvariant (webhookCallbackHandler db now rand rawStr rt rp p).db) ∧
    (∀ (db : DbV1) (now : Int) (rand cid : String) (cap : Nat)
        (catalog : Option Catalog) (upstream : UpstreamConfig) (b : HumanSendBody),
      ConversationRefInvariant db →
      (∃ c ∈ db.conversations, c.id = cid) →
      ConversationRefInvariant
        (humanPostMessageHandler db now rand cid cap catalog upstream b).db) ∧
    (∀ (db : DbV1) (cid : String) (mode : AiReplyMode) (now : Int) (rand : String)
        (ai : AiOutcome),
      ConversationRefInvariant db →
      (∃ c ∈ db.conversations, c.id = cid) →
      ConversationRefInvariant (aiReplyHandler db cid mode now rand ai).db) ∧
    (∀ (db : DbV1) (cid : String) (inbound : Message) (catalog : Option Catalog)
        (upstream : UpstreamConfig) (host mdl : String) (now : Int) (rr rm : String)
        (ai : AiOutcome) (uo so : FetchOutcome),
      ConversationRefInvariant db →
      (∃ c ∈ db.conversations, c.id = cid) →
      ConversationRefInvariant
        (webhookAutomationWorkflow db cid inbound catalog upstream host mdl now rr rm
          ai uo so).db) := by
  refine ⟨?_, ?_, ?_, ?_, ?_⟩
  · intro db now rand b hinv
    unfold webhookMessagesHandler
    by_cases h : recordHasTruthy db.webhookDedupeKeys b.dedupeKey = true
    · rw [if_pos h]
      exact hinv
    · rw [if_neg h]
      exact conversationRef_fresh_branch db _ _ b.conversationId _ _ _ hinv rfl rfl
  · intro db now rand rawStr rt rp p hinv
    unfold webhookCallbackHandler
    by_cases h : recordHasTruthy db.webhookDedupeKeys (callbackDedupeKey p now) = true
    · rw [if_pos h]
      exact hinv
    · rw [if_neg h]
      exact conversationRef_fresh_branch db _ _ (callbackConversationId p) _ _ _ hinv
        (buildCallbackInbound_conversationId p rp _ _ rawStr rt) rfl
  · intro db now rand cid cap catalog upstream b hinv hex
    unfold humanPostMessageHandler
    cases b with
    | text t =>
      exact conversationRef_after_append db _ db.conversations cid _ _ _ hinv rfl
        (fun t ht => ht) hex
    | image dataUrl alt =>
      by_cases h : utf8Len dataUrl > cap
      · simp only [if_pos h]
        exact hinv
      · simp only [if_neg h]
        exact conversationRef_after_append db _ db.conversations cid _ _ _ hinv rfl
          (fun t ht => ht) hex
    | file nm mi dataUrl =>
      by_cases h : utf8Len dataUrl > cap
      · simp only [if_pos h]
        exact hinv
      · simp only [if_neg h]
        exact conversationRef_after_append db _ db.conversations cid _ _ _ hinv rfl
          (fun t ht => ht) hex
  · intro db cid mode now rand ai hinv hex
    unfold aiReplyHandler
    cases ai with
    | thrown msg => exact hinv
    | ok content =>
      cases mode with
      | returnOnly => exact hinv
      | persist =>
        exact conversationRef_after_append db _ db.conversations cid _ _ _ hinv rfl
          (fun t ht => ht) hex
  · intro db cid inbound catalog upstream host mdl now rr rm ai uo so hinv hex
    unfold webhookAutomationWorkflow
    dsimp only
    split
    all_goals repeat' split
    all_goals
      first
      | exact fun m hm => hinv m hm
      | exact conversationRef_after_append db _ db.conversations cid _ _ _ hinv rfl
          (fun t ht => ht) hex

/-- Concrete runs of the invariant theorem: a webhook ingestion into an
empty snapshot keeps the invariant (conversation created eagerly), and a
human send into an existing conversation keeps it. -/
theorem conversation_ref_invariant_preserved_witness :
    ConversationRefInvariant
      (webhookMessagesHandler
        { updatedAt := 0, automationEnabled := false, conversations := [], messages := [],
          automationRuns := [], webhookDedupeKeys := [] }
        7 "ab12cd"
        { dedupeKey := "k1", conversationId := "c1", text := some "hi",
          sentAt := none }).db ∧
    ConversationRefInvariant
      (humanPostMessageHandler
        { updatedAt := 0, automationEnabled := false,
          conversations := [{ id := "wk:w1:u:p", title := "t", peerId := "p",
                              pinned := false, unreadCount := 0, lastMessageId := none,
                              lastActivityAt := 0, createdAt := 0, updatedAt := 0 }],
          messages := [], automationRuns := [], webhookDedupeKeys := [] }
        7 "ab12cd" "wk:w1:u:p" 1024 none { baseUrl := "", authorization := "" }
        (.text "hi")).db := by
  constructor
  · exact conversation_ref_invariant_preserved.1 _ 7 "ab12cd" _
      (by intro m hm; exact absurd hm (List.not_mem_nil m))
  · exact conversation_ref_invariant_preserved.2.2.1 _ 7 "ab12cd" "wk:w1:u:p" 1024 none
      { baseUrl := "", authorization := "" } (.text "hi")
      (by intro m hm; exact absurd hm (List.not_mem_nil m))
      ⟨{ id := "wk:w1:u:p", title := "t", peerId := "p", pinned := false, unreadCount := 0,
         lastMessageId := none, lastActivityAt := 0, createdAt := 0, updatedAt := 0 },
       by decide, rfl⟩

/-- Step count of a job under a trace extension. -/
theorem saveProg_append (tr : List SaveEvent) (e : SaveEvent) (i : Nat) :
    saveProg (tr ++ [e]) i =
      saveProg tr i +
        (match e with
         | .step j _ => if j = i then 1 else 0
         | .resolve _ => 0) := by
  unfold saveProg
  rw [List.filter_append, List.length_append]
  congr 1
  cases e with
  | step j s =>
    by_cases h : j = i <;> simp [List.filter, h]
  | resolve j => simp [List.filter]

/-- saveStepAt is defined exactly below three. -/
theorem saveStepAt_isSome_lt (k : Nat) (s : SaveStep) (h : saveStepAt k = some s) :
    k < 3 := by
  by_contra hk
  push_neg at hk
  obtain ⟨m, rfl⟩ : ∃ m, k = m + 3 := ⟨k - 3, by omega⟩
  have hnone : saveStepAt (m + 3) = none := rfl
  rw [hnone] at h
  exact Option.noConfusion h

/-- The write step sits at position one of the body. -/
theorem saveStepAt_eq_writeTmp (k : Nat) (h : saveStepAt k = some .writeTmp) : k = 1 := by
  have h3 := saveStepAt_isSome_lt k _ h
  interval_cases k
  · exact absurd h (by decide)
  · rfl
  · exact absurd h (by decide)

/-- The rename step sits at position two of the body. -/
theorem saveStepAt_eq_renameOver (k : Nat) (h : saveStepAt k = some .renameOver) :
    k = 2 := by
  have h3 := saveStepAt_isSome_lt k _ h
  interval_cases k
  · exact absurd h (by decide)
  · exact absurd h (by decide)
  · rfl

/-- Every step position below the current count occurs in a reachable
trace with its program-order step. -/
theorem saveQueue_steps_mem (n : Nat) (tr : List SaveEvent)
    (hreach : SaveQueueReachable n tr) :
    ∀ (i k : Nat) (s : SaveStep), saveStepAt k = some s → k < saveProg tr i →
      SaveEvent.step i s ∈ tr := by
  induction hreach with
  | refl =>
    intro i k s _ hk
    simp [saveProg] at hk
  | @tail mid fin _ hstep ih =>
    intro i k s hs hk
    cases hstep with
    | runStep i0 s0 hi hs0 hprev =>
      rw [saveProg_append] at hk
      dsimp only at hk
      by_cases hii : i0 = i
      · subst hii
        rw [if_pos rfl] at hk
        by_cases hkk : k < saveProg mid i0
        · exact List.mem_append_left _ (ih i0 k s hs hkk)
        · have hkeq : k = saveProg mid i0 := by omega
          subst hkeq
          rw [hs0] at hs
          obtain rfl : s0 = s := by injection hs
          exact List.mem_append_right _ (List.mem_singleton.mpr rfl)
      · rw [if_neg hii] at hk
        exact List.mem_append_left _ (ih i k s hs (by omega))
    | callerResolve i0 hi hdone hnew =>
      rw [saveProg_append] at hk
      dsimp only at hk
      exact List.mem_append_left _ (ih i k s hs (by omega))

/-- In a reachable trace a job that has begun has every earlier job
fully done. -/
theorem saveQueue_started_prev_done (n : Nat) (tr : List SaveEvent)
    (hreach : SaveQueueReachable n tr) :
    ∀ i : Nat, 0 < saveProg tr i → ∀ i' < i, saveProg tr i' = 3 := by
  induction hreach with
  | refl =>
    intro i h
    simp [saveProg] at h
  | @tail mid fin _ hstep ih =>
    intro i h i' hi'
    cases hstep with
    | runStep i0 s0 hi hs0 hprev =>
      have hlt : saveProg mid i0 < 3 := saveStepAt_isSome_lt _ _ hs0
      rw [saveProg_append] at h
      rw [saveProg_append]
      dsimp only at h ⊢
      have hdone : saveProg mid i' = 3 := by
        by_cases hii : i0 = i
        · subst hii
          rcases hprev with h0 | hprevdone
          · omega
          · by_cases hi'' : i' = i0 - 1
            · subst hi''
              exact hprevdone
            · have h1 : 0 < saveProg mid (i0 - 1) := by omega
              exact ih (i0 - 1) h1 i' (by omega)
        · rw [if_neg hii] at h
          exact ih i h i' hi'
      have hne : i0 ≠ i' := by
        intro hcc
        subst hcc
        omega
      rw [if_neg hne]
      omega
    | callerResolve i0 hi hdone0 hnew =>
      rw [saveProg_append] at h
      rw [saveProg_append]
      dsimp only at h ⊢
      have := ih i (by omega) i' hi'
      omega

/-- Occurrence positions: an element of a list occurs at some index. -/
theorem mem_get?_of_mem {α : Type} (x : α) (l : List α) (h : x ∈ l) :
    ∃ q < l.length, l.get? q = some x := by
  obtain ⟨q, hq⟩ := List.mem_iff_get?.mp h
  have hlt : q < l.length := by
    by_contra hge
    push_neg at hge
    rw [List.get?_eq_none.mpr hge] at hq
    exact Option.noConfusion hq
  exact ⟨q, hlt, hq⟩

/-- Case split of an index into an extended trace. -/
theorem get?_append_singleton_cases {α : Type} (tr : List α) (e : α) (p : Nat) (x : α)
    (h : (tr ++ [e]).get? p = some x) :
    (p < tr.length ∧ tr.get? p = some x) ∨ (p = tr.length ∧ x = e) := by
  by_cases hp : p < tr.length
  · left
    refine ⟨hp, ?_⟩
    rw [← List.get?_append hp]
    exact h
  · right
    push_neg at hp
    have hlen : p < tr.length + 1 := by
      have h2 := h
      rw [List.get?_eq_some] at h2
      obtain ⟨hh, _⟩ := h2
      simpa using hh
    have hpe : p = tr.length := by omega
    subst hpe
    rw [List.get?_append_right (le_refl _)] at h
    simp at h
    exact ⟨rfl, h.symm⟩

/-- C3: in every schedule of the FileDb write queue the writes are
totally ordered: a temp-file write of save j occurs only after the
rename of every earlier save i has completed (strictly earlier in the
trace), within one save the temp write precedes the rename, and a caller
promise resolves only after the rename of its own save; hence two saves
never interleave their temp writes or race on the rename. -/
theorem filedb_save_serialized (n : Nat) (tr : List SaveEvent)
    (hreach : SaveQueueReachable n tr) :
    (∀ (i j p : Nat), i < j → tr.get? p = some (.step j .writeTmp) →
      ∃ q < p, tr.get? q = some (.step i .renameOver)) ∧
    (∀ (i p : Nat), tr.get? p = some (.step i .renameOver) →
      ∃ q < p, tr.get? q = some (.step i .writeTmp)) ∧
    (∀ (i p : Nat), tr.get? p = some (.resolve i) →
      ∃ q < p, tr.get? q = some (.step i .renameOver)) := by
  induction hreach with
  | refl =>
    refine ⟨?_, ?_, ?_⟩
    · intro i j p _ h
      simp at h
    · intro i p h
      simp at h
    · intro i p h
      simp at h
  | @tail mid fin hmid hstep ih =>
    obtain ⟨ih1, ih2, ih3⟩ := ih
    have liftOld : ∀ (q : Nat) (x : SaveEvent), q < mid.length → mid.get? q = some x →
        ∀ e : SaveEvent, (mid ++ [e]).get? q = some x := by
      intro q x hq hqq e
      rw [List.get?_append hq]
      exact hqq
    have memToIdx : ∀ (x : SaveEvent), x ∈ mid →
        ∃ q < mid.length, ∀ e : SaveEvent, (mid ++ [e]).get? q = some x := by
      intro x hx
      obtain ⟨q, hq, hqq⟩ := mem_get?_of_mem x mid hx
      exact ⟨q, hq, fun e => liftOld q x hq hqq e⟩
    cases hstep with
    | runStep i0 s0 hi hs0 hprev =>
      refine ⟨?_, ?_, ?_⟩
      · intro i j p hij hp
        rcases get?_append_singleton_cases mid _ p _ hp with ⟨hlt, hold⟩ | ⟨hpe, hx⟩
        · obtain ⟨q, hq, hqq⟩ := ih1 i j p hij hold
          exact ⟨q, hq, liftOld q _ (by omega) hqq _⟩
        · obtain ⟨h1, h2⟩ : j = i0 ∧ SaveStep.writeTmp = s0 := by
            injection hx with ha hb
            exact ⟨ha, hb⟩
          subst h1
          subst h2
          have hone : saveProg mid j = 1 := saveStepAt_eq_writeTmp _ hs0
          have hdone : saveProg mid i = 3 :=
            saveQueue_started_prev_done n mid hmid j (by omega) i hij
          have hmem : SaveEvent.step i .renameOver ∈ mid :=
            saveQueue_steps_mem n mid hmid i 2 .renameOver rfl (by omega)
          obtain ⟨q, hq, hlift⟩ := memToIdx _ hmem
          exact ⟨q, by omega, hlift _⟩
      · intro i p hp
        rcases get?_append_singleton_cases mid _ p _ hp with ⟨hlt, hold⟩ | ⟨hpe, hx⟩
        · obtain ⟨q, hq, hqq⟩ := ih2 i p hold
          exact ⟨q, hq, liftOld q _ (by omega) hqq _⟩
        · obtain ⟨h1, h2⟩ : i = i0 ∧ SaveStep.renameOver = s0 := by
            injection hx with ha hb
            exact ⟨ha, hb⟩
          subst h1
          subst h2
          have htwo : saveProg mid i = 2 := saveStepAt_eq_renameOver _ hs0
          have hmem : SaveEvent.step i .writeTmp ∈ mid :=
            saveQueue_steps_mem n mid hmid i 1 .writeTmp rfl (by omega)
          obtain ⟨q, hq, hlift⟩ := memToIdx _ hmem
          exact ⟨q, by omega, hlift _⟩
      · intro i p hp
        rcases get?_append_singleton_cases mid _ p _ hp with ⟨hlt, hold⟩ | ⟨hpe, hx⟩
        · obtain ⟨q, hq, hqq⟩ := ih3 i p hold
          exact ⟨q, hq, liftOld q _ (by omega) hqq _⟩
        · simp at hx
    | callerResolve i0 hi hdone hnew =>
      refine ⟨?_, ?_, ?_⟩
      · intro i j p hij hp
        rcases get?_append_singleton_cases mid _ p _ hp with ⟨hlt, hold⟩ | ⟨hpe, hx⟩
        · obtain ⟨q, hq, hqq⟩ := ih1 i j p hij hold
          exact ⟨q, hq, liftOld q _ (by omega) hqq _⟩
        · simp at hx
      · intro i p hp
        rcases get?_append_singleton_cases mid _ p _ hp with ⟨hlt, hold⟩ | ⟨hpe, hx⟩
        · obtain ⟨q, hq, hqq⟩ := ih2 i p hold
          exact ⟨q, hq, liftOld q _ (by omega) hqq _⟩
        · simp at hx
      · intro i p hp
        rcases get?_append_singleton_cases mid _ p _ hp with ⟨hlt, hold⟩ | ⟨hpe, hx⟩
        · obtain ⟨q, hq, hqq⟩ := ih3 i p hold
          exact ⟨q, hq, liftOld q _ (by omega) hqq _⟩
        · have h1 : i = i0 := by
            injection hx
          subst h1
          have hmem : SaveEvent.step i .renameOver ∈ mid :=
            saveQueue_steps_mem n mid hmid i 2 .renameOver rfl (by omega)
          obtain ⟨q, hq, hlift⟩ := memToIdx _ hmem
          exact ⟨q, by omega, hlift _⟩

/-- A concrete schedule of two enqueued saves is reachable, and in it the
temp-file write of save 1 (position 5) is preceded by the rename of
save 0. -/
theorem filedb_save_serialized_witness :
    SaveQueueReachable 2
        [SaveEvent.step 0 .mkdirData, .step 0 .writeTmp, .step 0 .renameOver,
         .resolve 0, .step 1 .mkdirData, .step 1 .writeTmp, .step 1 .renameOver,
         .resolve 1] ∧
      ∃ q < 5,
        [SaveEvent.step 0 .mkdirData, .step 0 .writeTmp, .step 0 .renameOver,
         .resolve 0, .step 1 .mkdirData, .step 1 .writeTmp, .step 1 .renameOver,
         .resolve 1].get? q = some (.step 0 .renameOver) := by
  have hreach : SaveQueueReachable 2
      [SaveEvent.step 0 .mkdirData, .step 0 .writeTmp, .step 0 .renameOver,
       .resolve 0, .step 1 .mkdirData, .step 1 .writeTmp, .step 1 .renameOver,
       .resolve 1] :=
    Relation.ReflTransGen.tail
      (Relation.ReflTransGen.tail
        (Relation.ReflTransGen.tail
          (Relation.ReflTransGen.tail
            (Relation.ReflTransGen.tail
              (Relation.ReflTransGen.tail
                (Relation.ReflTransGen.tail
                  (Relation.ReflTransGen.tail
                    Relation.ReflTransGen.refl
                    (SaveQueueStep.runStep [] 0 .mkdirData (by decide)
                      (by decide) (Or.inl rfl)))
                  (SaveQueueStep.runStep
                    [SaveEvent.step 0 .mkdirData] 0 .writeTmp (by decide)
                    (by decide) (Or.inl rfl)))
                (SaveQueueStep.runStep
                  [SaveEvent.step 0 .mkdirData, .step 0 .writeTmp] 0
                  .renameOver (by decide) (by decide) (Or.inl rfl)))
              (SaveQueueStep.callerResolve
                [SaveEvent.step 0 .mkdirData, .step 0 .writeTmp,
                 .step 0 .renameOver] 0 (by decide) (by decide) (by decide)))
            (SaveQueueStep.runStep
              [SaveEvent.step 0 .mkdirData, .step 0 .writeTmp,
               .step 0 .renameOver, .resolve 0] 1 .mkdirData (by decide)
              (by decide) (Or.inr (by decide))))
          (SaveQueueStep.runStep
            [SaveEvent.step 0 .mkdirData, .step 0 .writeTmp,
             .step 0 .renameOver, .resolve 0, .step 1 .mkdirData] 1 .writeTmp
            (by decide) (by decide) (Or.inr (by decide))))
        (SaveQueueStep.runStep
          [SaveEvent.step 0 .mkdirData, .step 0 .writeTmp, .step 0 .renameOver,
           .resolve 0, .step 1 .mkdirData, .step 1 .writeTmp] 1 .renameOver
          (by decide) (by decide) (Or.inr (by decide))))
      (SaveQueueStep.callerResolve
        [SaveEvent.step 0 .mkdirData, .step 0 .writeTmp, .step 0 .renameOver,
         .resolve 0, .step 1 .mkdirData, .step 1 .writeTmp,
         .step 1 .renameOver] 1 (by decide) (by decide) (by decide))
  exact ⟨hreach,
    (filedb_save_serialized 2 _ hreach).1 0 1 5 (by decide) (by decide)⟩

/-- Appending a start event to a trace starts exactly that job. -/
theorem autoStarted_append_start (tr : List AutoEvent) (j i : Nat) :
    autoStarted (tr ++ [.start j]) i = (autoStarted tr i || decide (j = i)) := by
  simp [autoStarted, List.any_append]

/-- Appending a settle event leaves autoStarted unchanged. -/
theorem autoStarted_append_settle (tr : List AutoEvent) (j i : Nat)
    (o : SettleOutcome) :
    autoStarted (tr ++ [.settle j o]) i = autoStarted tr i := by
  simp [autoStarted, List.any_append]

/-- Appending a start event leaves autoSettled unchanged. -/
theorem autoSettled_append_start (tr : List AutoEvent) (j i : Nat) :
    autoSettled (tr ++ [.start j]) i = autoSettled tr i := by
  simp [autoSettled, List.any_append]

/-- Appending a settle event settles exactly that job. -/
theorem autoSettled_append_settle (tr : List AutoEvent) (j i : Nat)
    (o : SettleOutcome) :
    autoSettled (tr ++ [.settle j o]) i = (autoSettled tr i || decide (j = i)) := by
  simp [autoSettled, List.any_append]

/-- autoStarted is monotone under appending any event. -/
theorem autoStarted_append_mono (tr : List AutoEvent) (e : AutoEvent) (i : Nat)
    (h : autoStarted tr i = true) : autoStarted (tr ++ [e]) i = true := by
  cases e with
  | start j =>
    rw [autoStarted_append_start, h]
    rfl
  | settle j o =>
    rw [autoStarted_append_settle]
    exact h

/-- autoSettled is monotone under appending any event. -/
theorem autoSettled_append_mono (tr : List AutoEvent) (e : AutoEvent) (i : Nat)
    (h : autoSettled tr i = true) : autoSettled (tr ++ [e]) i = true := by
  cases e with
  | start j =>
    rw [autoSettled_append_start]
    exact h
  | settle j o =>
    rw [autoSettled_append_settle, h]
    rfl

/-- A started job has a start event in the trace. -/
theorem autoStarted_mem (tr : List AutoEvent) (i : Nat)
    (h : autoStarted tr i = true) : AutoEvent.start i ∈ tr := by
  unfold autoStarted at h
  rw [List.any_eq_true] at h
  obtain ⟨e, he, hp⟩ := h
  cases e with
  | start j =>
    simp only [decide_eq_true_eq] at hp
    subst hp
    exact he
  | settle j o => simp at hp

/-- A settled job has a settle event in the trace. -/
theorem autoSettled_mem (tr : List AutoEvent) (i : Nat)
    (h : autoSettled tr i = true) : ∃ o, AutoEvent.settle i o ∈ tr := by
  unfold autoSettled at h
  rw [List.any_eq_true] at h
  obtain ⟨e, he, hp⟩ := h
  cases e with
  | start j => simp at hp
  | settle j o =>
    simp only [decide_eq_true_eq] at hp
    subst hp
    exact ⟨o, he⟩

/-- In a reachable automation trace a settled workflow has started. -/
theorem autoQueue_settled_started (n : Nat) (tr : List AutoEvent)
    (hreach : AutoQueueReachable n tr) :
    ∀ i, autoSettled tr i = true → autoStarted tr i = true := by
  induction hreach with
  | refl =>
    intro i h
    simp [autoSettled] at h
  | @tail mid fin hmid hstep ih =>
    cases hstep with
    | beginJob i0 hi hnew hprev =>
      intro i h
      rw [autoSettled_append_start] at h
      exact autoStarted_append_mono _ _ _ (ih i h)
    | endJob i0 o0 hi hstarted hnot =>
      intro i h
      rw [autoSettled_append_settle] at h
      simp only [Bool.or_eq_true, decide_eq_true_eq] at h
      rcases h with h | h
      · exact autoStarted_append_mono _ _ _ (ih i h)
      · subst h
        exact autoStarted_append_mono _ _ _ hstarted

/-- In a reachable automation trace a started workflow has every earlier
workflow settled. -/
theorem autoQueue_started_prev_settled (n : Nat) (tr : List AutoEvent)
    (hreach : AutoQueueReachable n tr) :
    ∀ i, autoStarted tr i = true → ∀ i' < i, autoSettled tr i' = true := by
  induction hreach with
  | refl =>
    intro i h
    simp [autoStarted] at h
  | @tail mid fin hmid hstep ih =>
    cases hstep with
    | beginJob i0 hi hnew hprev =>
      intro i h i' hii
      rw [autoStarted_append_start] at h
      simp only [Bool.or_eq_true, decide_eq_true_eq] at h
      rcases h with h | h
      · exact autoSettled_append_mono _ _ _ (ih i h i' hii)
      · subst h
        have hset : autoSettled mid i' = true := by
          rcases hprev with h0 | hp
          · omega
          · by_cases hlast : i' = i0 - 1
            · subst hlast
              exact hp
            · have hst : autoStarted mid (i0 - 1) = true :=
                autoQueue_settled_started n mid hmid _ hp
              exact ih _ hst i' (by omega)
        exact autoSettled_append_mono _ _ _ hset
    | endJob i0 o0 hi hstarted hnot =>
      intro i h i' hii
      rw [autoStarted_append_settle] at h
      exact autoSettled_append_mono _ _ _ (ih i h i' hii)

/-- C4: the automation lane serializes webhook-triggered workflows: a
stored promise tail is extended by then for each enqueue, so in every
reachable schedule workflow j begins only strictly after each earlier
workflow i has settled, and every settle event is preceded by the same
workflow's start; moreover the stored tail carries catch, so starting
from a resolved tail every enqueued workflow runs even when earlier ones
reject - a failure never blocks the queue. -/
theorem automation_queue_serialized :
    (∀ fns : List SettleOutcome,
        runAutomationQueue .fulfilled fns = List.replicate fns.length true) ∧
      ∀ (n : Nat) (tr : List AutoEvent), AutoQueueReachable n tr →
        (∀ (i j p : Nat), i < j → tr.get? p = some (.start j) →
          ∃ q < p, ∃ o, tr.get? q = some (.settle i o)) ∧
        ∀ (i p : Nat) (o : SettleOutcome), tr.get? p = some (.settle i o) →
          ∃ q < p, tr.get? q = some (.start i) := by
  constructor
  · intro fns
    induction fns with
    | nil => rfl
    | cons fn rest ih =>
      simp [runAutomationQueue, enqueueChain, ih, List.replicate]
  · intro n tr hreach
    induction hreach with
    | refl =>
      refine ⟨?_, ?_⟩
      · intro i j p _ h
        simp at h
      · intro i p o h
        simp at h
    | @tail mid fin hmid hstep ih =>
      obtain ⟨ih1, ih2⟩ := ih
      have liftOld : ∀ (q : Nat) (x : AutoEvent), q < mid.length →
          mid.get? q = some x →
          ∀ e : AutoEvent, (mid ++ [e]).get? q = some x := by
        intro q x hq hqq e
        rw [List.get?_append hq]
        exact hqq
      have memToIdx : ∀ (x : AutoEvent), x ∈ mid →
          ∃ q < mid.length, ∀ e : AutoEvent, (mid ++ [e]).get? q = some x := by
        intro x hx
        obtain ⟨q, hq, hqq⟩ := mem_get?_of_mem x mid hx
        exact ⟨q, hq, fun e => liftOld q x hq hqq e⟩
      cases hstep with
      | beginJob i0 hi hnew hprev =>
        refine ⟨?_, ?_⟩
        · intro i j p hij hp
          rcases get?_append_singleton_cases mid _ p _ hp with ⟨hlt, hold⟩ | ⟨hpe, hx⟩
          · obtain ⟨q, hq, o, hqq⟩ := ih1 i j p hij hold
            exact ⟨q, hq, o, liftOld q _ (by omega) hqq _⟩
          · have h1 : j = i0 := by
              injection hx
            subst h1
            have hset : autoSettled mid i = true := by
              rcases hprev with h0 | hp0
              · omega
              · by_cases hlast : i = j - 1
                · subst hlast
                  exact hp0
                · have hst : autoStarted mid (j - 1) = true :=
                    autoQueue_settled_started n mid hmid _ hp0
                  exact autoQueue_started_prev_settled n mid hmid _ hst i
                    (by omega)
            obtain ⟨o, hmem⟩ := autoSettled_mem mid i hset
            obtain ⟨q, hq, hlift⟩ := memToIdx _ hmem
            exact ⟨q, by omega, o, hlift _⟩
        · intro i p o hp
          rcases get?_append_singleton_cases mid _ p _ hp with ⟨hlt, hold⟩ | ⟨hpe, hx⟩
          · obtain ⟨q, hq, hqq⟩ := ih2 i p o hold
            exact ⟨q, hq, liftOld q _ (by omega) hqq _⟩
          · simp at hx
      | endJob i0 o0 hi hstarted hnot =>
        refine ⟨?_, ?_⟩
        · intro i j p hij hp
          rcases get?_append_singleton_cases mid _ p _ hp with ⟨hlt, hold⟩ | ⟨hpe, hx⟩
          · obtain ⟨q, hq, o, hqq⟩ := ih1 i j p hij hold
            exact ⟨q, hq, o, liftOld q _ (by omega) hqq _⟩
          · simp at hx
        · intro i p o hp
          rcases get?_append_singleton_cases mid _ p _ hp with ⟨hlt, hold⟩ | ⟨hpe, hx⟩
          · obtain ⟨q, hq, hqq⟩ := ih2 i p o hold
            exact ⟨q, hq, liftOld q _ (by omega) hqq _⟩
          · obtain ⟨h1, h2⟩ : i = i0 ∧ o = o0 := by
              injection hx with ha hb
              exact ⟨ha, hb⟩
            subst h1
            have hmem : AutoEvent.start i ∈ mid := autoStarted_mem mid i hstarted
            obtain ⟨q, hq, hlift⟩ := memToIdx _ hmem
            exact ⟨q, by omega, hlift _⟩

/-- A concrete schedule of two webhook workflows where the first rejects
is reachable and ordered: workflow 1 starts (position 2) only after
workflow 0 settled, and with the stored catch tail both workflows run. -/
theorem automation_queue_serialized_witness :
    runAutomationQueue .fulfilled [.rejected, .fulfilled] =
        List.replicate 2 true ∧
      ∃ q < 2, ∃ o,
        [AutoEvent.start 0, .settle 0 .rejected, .start 1,
         .settle 1 .fulfilled].get? q = some (.settle 0 o) := by
  have hreach : AutoQueueReachable 2
      [AutoEvent.start 0, .settle 0 .rejected, .start 1,
       .settle 1 .fulfilled] :=
    Relation.ReflTransGen.tail
      (Relation.ReflTransGen.tail
        (Relation.ReflTransGen.tail
          (Relation.ReflTransGen.tail Relation.ReflTransGen.refl
            (AutoQueueStep.beginJob [] 0 (by decide) (by decide) (Or.inl rfl)))
          (AutoQueueStep.endJob [AutoEvent.start 0] 0 .rejected (by decide)
            (by decide) (by decide)))
        (AutoQueueStep.beginJob [AutoEvent.start 0, .settle 0 .rejected] 1
          (by decide) (by decide) (Or.inr (by decide))))
      (AutoQueueStep.endJob
        [AutoEvent.start 0, .settle 0 .rejected, .start 1] 1 .fulfilled
        (by decide) (by decide) (by decide))
  exact ⟨automation_queue_serialized.1 [.rejected, .fulfilled],
    (automation_queue_serialized.2 2 _ hreach).1 0 1 2 (by decide) (by decide)⟩

end WkteamSpec
